import Mathlib

/-!
Verification of the node-zero Bond protocol core: care-score engine,
trust-tier hysteresis, P-256 point compression, ECDH shared-secret
symmetry, the bond negotiation state machine and the wire codec.

Definitions are shallow embeddings of the TypeScript sources
(`src/primitives/channel-manager.ts`, `src/backends/crypto-utils.ts`,
`src/codec.ts`, `src/interfaces/channel.ts`).  JavaScript `number`
arithmetic on care scores is modelled with exact field arithmetic
(`ℚ`/`ℝ`); byte buffers are `List ℕ` with every entry below 256.
-/

namespace NodeZero

/-- Trust tiers, from `types/bond.ts`: `"GHOST" | "STRUT" | "COHERENT" | "RESONANT"`. -/
inductive TrustTier
  | GHOST
  | STRUT
  | COHERENT
  | RESONANT
  deriving DecidableEq, Repr

/-- Bond lifecycle states, from `types/bond.ts`. -/
inductive BondStatus
  | PENDING
  | NEGOTIATING
  | ACTIVE
  | TERMINATED
  | REJECTED
  deriving DecidableEq, Repr

/-- Thresholds record `TrustTierThresholds` from `interfaces/channel.ts`, over an ordered field. -/
structure TrustTierThresholds (α : Type) where
  strut : α
  coherent : α
  resonant : α

/-- Constant `DEFAULT_TIER_THRESHOLDS` from `interfaces/channel.ts`:
`strut = 0.2`, `coherent = 0.5`, `resonant = 0.8`. -/
def defaultTierThresholds {α : Type} [LinearOrderedField α] : TrustTierThresholds α :=
  ⟨2 / 10, 5 / 10, 8 / 10⟩

/-- Function `ChannelManager.scoreToTier` (channel-manager.ts, lines 677-703).
The source's early-return chain becomes a nested if-then-else chain:
resonant is evaluated first, then coherent, then strut, else GHOST.
The hysteresis band is `H = 0.02`.  A tier X currently held is kept down to
`threshold(X) - H`; any other tier is entered only from `threshold + H`.
The held COHERENT tier additionally requires `s < resonant + H`. -/
def scoreToTier {α : Type} [LinearOrderedField α] (score : α)
    (currentTier : Option TrustTier := none) : TrustTier :=
  let s := score
  let H : α := 2 / 100
  let resonant := (defaultTierThresholds (α := α)).resonant
  let coherent := (defaultTierThresholds (α := α)).coherent
  let strut := (defaultTierThresholds (α := α)).strut
  if (if currentTier = some .RESONANT then resonant - H ≤ s else resonant + H ≤ s) then
    .RESONANT
  else if (if currentTier = some .COHERENT then coherent - H ≤ s ∧ s < resonant + H
           else coherent + H ≤ s) then
    .COHERENT
  else if (if currentTier = some .STRUT then strut - H ≤ s else strut + H ≤ s) then
    .STRUT
  else
    .GHOST

/-- Ordering of the trust tiers (GHOST lowest, RESONANT highest). -/
def tierRank : TrustTier → ℕ
  | .GHOST => 0
  | .STRUT => 1
  | .COHERENT => 2
  | .RESONANT => 3

/-- The entry threshold of each tier under `DEFAULT_TIER_THRESHOLDS`
(GHOST has no threshold; it is the bottom tier). -/
def tierThreshold {α : Type} [LinearOrderedField α] : TrustTier → α
  | .GHOST => 0
  | .STRUT => (defaultTierThresholds (α := α)).strut
  | .COHERENT => (defaultTierThresholds (α := α)).coherent
  | .RESONANT => (defaultTierThresholds (α := α)).resonant

/-- Constant `DEFAULT_DECAY_CONFIG.halfLifeDays` from `interfaces/channel.ts`. -/
def halfLifeDays : ℝ := 14

/-- Function `ChannelManager.applyDecay` (channel-manager.ts, lines 667-671):
`CS(t) = max(0, CS(0) * e^(-lambda*t))` with `lambda = ln 2 / halfLifeDays`. -/
noncomputable def applyDecay (score : ℝ) (daysSinceInteraction : ℝ) : ℝ :=
  let lambda := Real.log 2 / halfLifeDays
  let decayed := score * Real.exp (-lambda * daysSinceInteraction)
  max 0 decayed

/-- Function `ChannelManager.recalculateCareScore` (channel-manager.ts, lines 626-661):
`CS = 0.3*F + 0.3*R + 0.2*C + 0.2*Resp`, clamped to `[0,1]`. -/
noncomputable def recalculateCareScore (sentCount recvCount : ℕ)
    (dailyCounts : List ℕ) (avgResponseTime : ℝ) : ℝ :=
  let total : ℝ := (sentCount : ℝ) + (recvCount : ℝ)
  let frequency := min 1 (total / 140)
  let reciprocity : ℝ :=
    if total < 3 then 5 / 10
    else min 1 ((min (sentCount : ℝ) (recvCount : ℝ)) /
      (max 1 (max (sentCount : ℝ) (recvCount : ℝ))))
  let consistency : ℝ :=
    if 1 < dailyCounts.length then
      let mean := ((dailyCounts.map (fun v => (v : ℝ))).sum) / (dailyCounts.length : ℝ)
      let variance :=
        ((dailyCounts.map (fun v => ((v : ℝ) - mean) ^ 2)).sum) / (dailyCounts.length : ℝ)
      let stddev := Real.sqrt variance
      1 / (1 + stddev / (mean + 1 / 10))
    else 1
  let responsiveness := max 0 (min 1 ((60 - avgResponseTime) / 60))
  let composite := 3 / 10 * frequency + 3 / 10 * reciprocity
    + 2 / 10 * consistency + 2 / 10 * responsiveness
  max 0 (min 1 composite)

/-- Per-bond interaction tracking (`BondInteractionState` in channel-manager.ts).
Counters are natural numbers; response-time samples are milliseconds. -/
structure Tracking where
  sentCount : ℕ
  recvCount : ℕ
  dailyCounts : List ℕ
  responseTimesMs : List ℕ
  lastMessageSentAt : ℕ
  deriving DecidableEq, Repr

/-- The raw (undecayed) score computed inside `ChannelManager.updateCareScore`
(channel-manager.ts, lines 540-554): average response time in minutes from the
samples, then `recalculateCareScore` with `dailyCounts` defaulting to the single
bucket `[sent + recv]` when empty. -/
noncomputable def rawScoreOf (tr : Tracking) : ℝ :=
  let avgResponseMs : ℝ :=
    if 0 < tr.responseTimesMs.length then
      ((tr.responseTimesMs.map (fun v => (v : ℝ))).sum) / (tr.responseTimesMs.length : ℝ)
    else 0
  let avgResponseMinutes := avgResponseMs / 60000
  recalculateCareScore tr.sentCount tr.recvCount
    (if 0 < tr.dailyCounts.length then tr.dailyCounts else [tr.sentCount + tr.recvCount])
    avgResponseMinutes

/-- Function `ChannelManager.updateCareScore` (channel-manager.ts, lines 528-617), reduced
to its score/tier effect: recompute the raw score, apply decay only for a strictly
positive `daysSinceLastInteraction`, and re-derive the tier from the previous one. -/
noncomputable def updateCareScoreModel (tr : Tracking) (previousTier : TrustTier)
    (daysSinceLastInteraction : ℝ) : ℝ × TrustTier :=
  let rawScore := rawScoreOf tr
  let decayedScore :=
    if 0 < daysSinceLastInteraction then applyDecay rawScore daysSinceLastInteraction
    else rawScore
  (decayedScore, scoreToTier decayedScore (some previousTier))

/-! ### ECDH shared-secret derivation (crypto-utils.ts)

Function `deriveSharedSecret` (crypto-utils.ts, lines 214-257) decompresses the
peer's compressed public key, performs raw ECDH via WebCrypto `deriveBits`, and
expands the raw material with HKDF over the given info label and salt
(defaulting to 32 zero bytes).  The WebCrypto primitives themselves are outside
the repository; they are modelled abstractly: curve points form an additive
commutative group acted on by scalars (private keys), raw ECDH bits are an
arbitrary function of the computed point, and HKDF is an arbitrary
deterministic function of raw bits, info and salt. -/

/-- Modelled from the spec: the P-256/WebCrypto primitive layer used by
`deriveSharedSecret`.  `G` is the curve base point, `compress`/`decompress`
translate between points and 33-byte compressed form, `ecdhRawBits` extracts
the raw ECDH output from the computed point (WebCrypto `deriveBits`), and
`hkdfExpand` is the HKDF expansion to 32 bytes. -/
structure ECDHModel (Point CKey Secret : Type) [AddCommGroup Point] where
  G : Point
  compress : Point → CKey
  decompress : CKey → Point
  ecdhRawBits : Point → Secret
  hkdfExpand : Secret → String → List ℕ → Secret

/-- The public key of the private scalar `d` is the scalar multiple `d • G`. -/
def publicKeyOfPrivate {Point CKey Secret : Type} [AddCommGroup Point]
    (M : ECDHModel Point CKey Secret) (d : ℕ) : CKey :=
  M.compress (d • M.G)

/-- Function `deriveSharedSecret` (crypto-utils.ts, lines 214-257): import
(decompress) the peer public key, derive raw ECDH bits from
`localPrivate • peerPoint`, then HKDF-expand with `info` and `salt`
(default: 32 zero bytes). -/
def deriveSharedSecret {Point CKey Secret : Type} [AddCommGroup Point]
    (M : ECDHModel Point CKey Secret) (localPrivate : ℕ) (peerPublicKey : CKey)
    (info : String) (salt : List ℕ := List.replicate 32 0) : Secret :=
  M.hkdfExpand (M.ecdhRawBits (localPrivate • M.decompress peerPublicKey)) info salt

/-! ### P-256 point compression (crypto-utils.ts) -/

/-- The P-256 field prime (crypto-utils.ts, line 101). -/
def p256 : ℕ := 0xffffffff00000001000000000000000000000000ffffffffffffffffffffffff

/-- The P-256 curve constant `b` (crypto-utils.ts, line 104). -/
def b256 : ℕ := 0x5ac635d8aa3a93e7b3ebbd55769886bc651d06b0cc53b0f63bce3c3e27d2604b

/-- JavaScript `.slice(a, b)` on a byte array. -/
def slice (l : List ℕ) (a b : ℕ) : List ℕ := (l.drop a).take (b - a)

/-- Big-endian byte deserialisation (crypto-utils.ts, lines 110-113):
`x = (x << 8) | byte` folded over the buffer. -/
def bytesToNat (bytes : List ℕ) : ℕ := bytes.foldl (fun x bi => x <<< 8 ||| bi) 0

/-- Big-endian byte serialisation (crypto-utils.ts, lines 136-141): byte `i`
(filled from the end) is `tmp & 0xff` where `tmp` is shifted right 8 bits per step. -/
def natToBytesBE : ℕ → ℕ → List ℕ
  | 0, _ => []
  | k + 1, v => natToBytesBE k (v >>> 8) ++ [v &&& 255]

/-- Fuel-indexed core of `modPow` (crypto-utils.ts, lines 150-161): square and
multiply from the least-significant exponent bit, with accumulator `acc`.
256 units of fuel suffice for any exponent below `2 ^ 256`. -/
def modPowAux (m : ℕ) : ℕ → ℕ → ℕ → ℕ → ℕ
  | 0, _, _, acc => acc
  | fuel + 1, base, e, acc =>
    if e = 0 then acc
    else
      modPowAux m fuel (base * base % m) (e / 2)
        (if e % 2 = 1 then acc * base % m else acc)

/-- Function `modPow` (crypto-utils.ts, lines 150-161): `base ^ exp % m` by
binary exponentiation, with the base normalised modulo `m` first and the
accumulator starting at 1. -/
def modPow (base exp m : ℕ) : ℕ := modPowAux m 256 (base % m) exp 1

/-- Errors thrown by the point-compression functions (crypto-utils.ts throws
`Error` with a message; the two distinct conditions are modelled as codes). -/
inductive CryptoError
  | invalidLength (expected got : ℕ)
  | invalidPrefix (got : ℕ)
  deriving DecidableEq, Repr

/-- Function `compressPublicKey` (crypto-utils.ts, lines 60-78): a 65-byte
`0x04`-prefixed uncompressed key becomes `(0x02 | parity(y)) || x`. -/
def compressPublicKey (uncompressed : List ℕ) : Except CryptoError (List ℕ) :=
  if uncompressed.length ≠ 65 ∨ uncompressed.getD 0 0 ≠ 0x04 then
    .error (.invalidLength 65 uncompressed.length)
  else
    let x := slice uncompressed 1 33
    let y := slice uncompressed 33 65
    let pfx := if y.getD 31 0 &&& 1 = 0 then 0x02 else 0x03
    .ok (pfx :: x)

/-- Function `decompressPublicKey` (crypto-utils.ts, lines 86-147): recover
`y` from `y^2 = x^3 - 3x + b (mod p)` via the square root `y2 ^ ((p+1)/4)`
(valid because `p ≡ 3 mod 4`), then select the root with the parity demanded
by the prefix.  JavaScript BigInt `%` truncates toward zero, hence the
explicit `Int.tmod` and the `+ p` adjustment for a negative remainder. -/
def decompressPublicKey (compressed : List ℕ) : Except CryptoError (List ℕ) :=
  if compressed.length ≠ 33 then
    .error (.invalidLength 33 compressed.length)
  else
    let pfx := compressed.getD 0 0
    if pfx ≠ 0x02 ∧ pfx ≠ 0x03 then .error (.invalidPrefix pfx)
    else
      let xBytes := slice compressed 1 33
      let x := bytesToNat xBytes
      let x3 := modPow x 3 p256
      let threeX := 3 * x % p256
      let y2raw : ℤ := Int.tmod ((x3 : ℤ) - (threeX : ℤ) + (b256 : ℤ)) (p256 : ℤ)
      let y2 : ℕ := (if y2raw < 0 then y2raw + (p256 : ℤ) else y2raw).toNat
      let e := (p256 + 1) / 4
      let y0 := modPow y2 e p256
      let wantOdd : Bool := pfx == 3
      let isOdd : Bool := y0 &&& 1 == 1
      let y := if wantOdd != isOdd then p256 - y0 else y0
      .ok (0x04 :: (xBytes ++ natToBytesBE 32 y))

/-! ### Bond negotiation state machine (channel-manager.ts)

The `ChannelManager` owns a bond map and an interaction map, both JavaScript
`Map`s keyed by the peer's node-id string; they are modelled as insertion-
ordered association lists with `Map.get`/`Map.set` semantics.  The identity
provider and crypto backend are collaborators; their operations
(`deriveNodeId`, `sign`, `verify`, `deriveSharedSecret`) appear as an abstract
`CryptoOps` record.  `initiate`/`accept` are `async` with suspension points at
each `waitForMessage`; a run is modelled by supplying, for each wait, either
the delivered payload or `none` for the 30-second timeout. -/

/-- Value of JavaScript `Map.get`. -/
def assocGet {α : Type} (k : String) : List (String × α) → Option α
  | [] => none
  | (k', v) :: rest => if k' = k then some v else assocGet k rest

/-- JavaScript `Map.set`: replace in place if the key exists (keeping the
insertion order), otherwise append. -/
def assocSet {α : Type} (k : String) (v : α) : List (String × α) → List (String × α)
  | [] => [(k, v)]
  | (k', v') :: rest => if k' = k then (k, v) :: rest else (k', v') :: assocSet k v rest

/-- State-visibility levels, from `types/bond.ts`. -/
inductive StateVisibility
  | NONE
  | VOLTAGE
  | FULL_VECTOR
  deriving DecidableEq, Repr

/-- The `CareScoreComponents` record from `types/bond.ts`. -/
structure CareScoreComponents (α : Type) where
  frequency : α
  reciprocity : α
  consistency : α
  responsiveness : α
  deriving DecidableEq, Repr

/-- The `partner` sub-record of `NodeZeroBond` (`types/bond.ts`). -/
structure BondPartner where
  nodeId : String
  publicKey : List ℕ
  keySequence : ℕ
  deriving DecidableEq, Repr

/-- The `trust` sub-record of `NodeZeroBond`.  Care scores are JavaScript
numbers; they are modelled with exact rationals. -/
structure BondTrust where
  careScore : ℚ
  components : CareScoreComponents ℚ
  tier : TrustTier
  deriving DecidableEq, Repr

/-- The `channel` sub-record of `NodeZeroBond`. -/
structure BondChannel where
  sharedSecret : List ℕ
  lastInteraction : ℕ
  totalExchanges : ℕ
  status : BondStatus
  deriving DecidableEq, Repr

/-- The `permissions` sub-record of `NodeZeroBond`. -/
structure BondPermissions where
  grantedVaultLayers : List ℕ
  stateVisibility : StateVisibility
  deriving DecidableEq, Repr

/-- The `NodeZeroBond` record (`types/bond.ts`). -/
structure Bond where
  version : ℕ
  partner : BondPartner
  trust : BondTrust
  channel : BondChannel
  permissions : BondPermissions
  createdAt : ℕ
  deriving DecidableEq, Repr

/-- The mutable state owned by a `ChannelManager`: the bond map and the
interaction-counter map. -/
structure ChanState where
  bonds : List (String × Bond)
  interactions : List (String × Tracking)
  deriving DecidableEq, Repr

/-- Error codes of `ChannelError` (`interfaces/channel.ts`, lines 51-66). -/
inductive ChanErrorCode
  | TOPOLOGY_VIOLATION
  | BOND_NOT_FOUND
  | NEGOTIATION_FAILED
  | NEGOTIATION_TIMEOUT
  | ALREADY_BONDED
  | VERIFICATION_FAILED
  | SEND_FAILED
  deriving DecidableEq, Repr

/-- Constant `MAX_BONDS_PER_CELL` (`interfaces/channel.ts`, line 29). -/
def MAX_BONDS_PER_CELL : ℕ := 4

/-- Method `ChannelManager.getActiveBondCount` (channel-manager.ts, lines
514-518): the number of bonds whose channel status is ACTIVE. -/
def getActiveBondCount (st : ChanState) : ℕ :=
  (st.bonds.filter (fun kv => kv.2.channel.status == .ACTIVE)).length

/-- Identity-provider and crypto-backend collaborators of one node, as consumed
by `ChannelManager` (`deriveNodeId`, `identity.sign`, `identity.verify` and
`deriveSharedSecret` over the node's own ECDH private key). -/
structure CryptoOps where
  deriveNodeId : List ℕ → String
  sign : List ℕ → List ℕ
  verify : List ℕ → List ℕ → List ℕ → Bool
  ecdhDerive : List ℕ → String → List ℕ → List ℕ

/-- Big-endian 4-byte serialisation, `DataView.setUint32(_, v, false)`. -/
def be32 (v : ℕ) : List ℕ :=
  [v / 2 ^ 24 % 256, v / 2 ^ 16 % 256, v / 2 ^ 8 % 256, v % 256]

/-- Big-endian 4-byte deserialisation, `DataView.getUint32(_, false)`. -/
def beVal32 (l : List ℕ) : ℕ :=
  l.getD 0 0 * 2 ^ 24 + l.getD 1 0 * 2 ^ 16 + l.getD 2 0 * 2 ^ 8 + l.getD 3 0

/-- Wire prefix `BOND_CHALLENGE` (channel-manager.ts, line 58). -/
def BOND_CHALLENGE : ℕ := 0x10

/-- Wire prefix `BOND_RESPONSE` (channel-manager.ts, line 59). -/
def BOND_RESPONSE : ℕ := 0x11

/-- Wire prefix `BOND_CONFIRM` (channel-manager.ts, line 60). -/
def BOND_CONFIRM : ℕ := 0x12

/-- Wire prefix `BOND_DATA` (channel-manager.ts, line 61). -/
def BOND_DATA : ℕ := 0x13

/-- Method `ChannelManager.createBondRecord` (channel-manager.ts, lines
823-878): build the fresh ACTIVE `NodeZeroBond` (careScore 0.5, default
components, tier from `scoreToTier(0.5)`), store it, and reset the
interaction counters for the peer. -/
def createBondRecord (st : ChanState) (peerId : String) (peerPublicKey : List ℕ)
    (peerKeySequence : ℕ) (sharedSecret : List ℕ) (timestamp : ℕ) : ChanState :=
  let initialScore : ℚ := 5 / 10
  let bond : Bond :=
    { version := 1
      partner := ⟨peerId, peerPublicKey, peerKeySequence⟩
      trust :=
        { careScore := initialScore
          components := ⟨5 / 10, 5 / 10, 1, 1⟩
          tier := scoreToTier initialScore }
      channel := ⟨sharedSecret, timestamp, 0, .ACTIVE⟩
      permissions := ⟨[], .VOLTAGE⟩
      createdAt := timestamp }
  { bonds := assocSet peerId bond st.bonds
    interactions := assocSet peerId ⟨0, 0, [], [], 0⟩ st.interactions }

/-- Result of one `initiate`/`accept` run: the final state, the frames handed
to `transport.transmit` in order, and the error thrown, if any. -/
structure OpResult where
  state : ChanState
  sent : List (List ℕ)
  err : Option ChanErrorCode
  deriving DecidableEq, Repr

/-- Environment of one `initiate` run: the caller's identity material, the
fresh 32-byte challenge nonce drawn from `randomBytes`, the two timestamps
taken during the run, and the payload delivered for the `BondResponse` wait
(`none` models the 30-second timeout). -/
structure InitiateRun where
  myPub : List ℕ
  myKeySeq : ℕ
  myEcdhPub : List ℕ
  initiatorNonce : List ℕ
  now : ℕ
  confirmNow : ℕ
  response : Option (List ℕ)
  deriving DecidableEq, Repr

/-- The `BondChallenge` (A1) payload built by `initiate` (channel-manager.ts,
lines 142-147): `ecdsaPub(33) ‖ keySeq(1) ‖ ecdhPub(33) ‖ nonce(32) ‖ timestamp(4)`. -/
def challengePayloadOf (run : InitiateRun) : List ℕ :=
  run.myPub ++ [run.myKeySeq % 256] ++ run.myEcdhPub ++ run.initiatorNonce ++ be32 run.now

/-- The signed `BondChallenge` (A1) frame transmitted by `initiate`
(channel-manager.ts, lines 149-156). -/
def challengeFrameOf (C : CryptoOps) (run : InitiateRun) : List ℕ :=
  BOND_CHALLENGE :: (challengePayloadOf run ++ C.sign (challengePayloadOf run))

/-- Method `ChannelManager.initiate` (channel-manager.ts, lines 115-240).
Checks topology and duplicate bonding, sends the signed `BondChallenge` (A1),
waits for `BondResponse` (A2), verifies echoed nonce then signature, sends
`BondConfirm` (A3), derives the shared secret over the concatenated nonces and
creates the bond record. -/
def initiate (C : CryptoOps) (st : ChanState) (targetPublicKey : List ℕ)
    (run : InitiateRun) : OpResult :=
  if MAX_BONDS_PER_CELL ≤ getActiveBondCount st then
    ⟨st, [], some .TOPOLOGY_VIOLATION⟩
  else
    let targetNodeId := C.deriveNodeId targetPublicKey
    if (assocGet targetNodeId st.bonds).isSome then
      ⟨st, [], some .ALREADY_BONDED⟩
    else
      let challengeFrame := challengeFrameOf C run
      match run.response with
      | none => ⟨st, [challengeFrame], some .NEGOTIATION_TIMEOUT⟩
      | some responseRaw =>
        if responseRaw.length < 199 then
          ⟨st, [challengeFrame], some .NEGOTIATION_FAILED⟩
        else
          let responderPubKey := slice responseRaw 0 33
          let responderKeySeq := responseRaw.getD 33 0
          let responderEcdhPub := slice responseRaw 34 67
          let responderNonce := slice responseRaw 67 99
          let echoedNonce := slice responseRaw 99 131
          let responderPayload := slice responseRaw 0 135
          let responderSig := slice responseRaw 135 199
          if echoedNonce ≠ run.initiatorNonce then
            ⟨st, [challengeFrame], some .VERIFICATION_FAILED⟩
          else if ¬ C.verify responderPayload responderSig responderPubKey then
            ⟨st, [challengeFrame], some .VERIFICATION_FAILED⟩
          else
            let confirmPayload :=
              run.myPub ++ [run.myKeySeq % 256] ++ run.myEcdhPub ++ responderNonce
                ++ be32 run.confirmNow
            let confirmSig := C.sign confirmPayload
            let confirmFrame := BOND_CONFIRM :: (confirmPayload ++ confirmSig)
            let sharedSecret :=
              C.ecdhDerive responderEcdhPub "node-zero-bond-v1"
                (run.initiatorNonce ++ responderNonce)
            ⟨createBondRecord st targetNodeId targetPublicKey responderKeySeq
                sharedSecret run.now,
              [challengeFrame, confirmFrame], none⟩

/-- Environment of one `accept` run: the responder's identity material, the
fresh response nonce, the timestamp, and the payloads delivered for the
`BondChallenge` and `BondConfirm` waits (`none` models a timeout). -/
structure AcceptRun where
  myPub : List ℕ
  myKeySeq : ℕ
  myEcdhPub : List ℕ
  responderNonce : List ℕ
  now : ℕ
  challenge : Option (List ℕ)
  confirm : Option (List ℕ)
  deriving DecidableEq, Repr

/-- Method `ChannelManager.accept` (channel-manager.ts, lines 242-378).
Checks topology and duplicate bonding, waits for `BondChallenge` (A1),
verifies its signature, sends the signed `BondResponse` (A2) echoing the
initiator nonce, waits for `BondConfirm` (A3), verifies the echoed responder
nonce then the signature, derives the shared secret and creates the bond. -/
def accept (C : CryptoOps) (st : ChanState) (initiatorPublicKey : List ℕ)
    (run : AcceptRun) : OpResult :=
  if MAX_BONDS_PER_CELL ≤ getActiveBondCount st then
    ⟨st, [], some .TOPOLOGY_VIOLATION⟩
  else
    let initiatorNodeId := C.deriveNodeId initiatorPublicKey
    if (assocGet initiatorNodeId st.bonds).isSome then
      ⟨st, [], some .ALREADY_BONDED⟩
    else
      match run.challenge with
      | none => ⟨st, [], some .NEGOTIATION_TIMEOUT⟩
      | some challengeRaw =>
        if challengeRaw.length < 167 then
          ⟨st, [], some .NEGOTIATION_FAILED⟩
        else
          let challengerPubKey := slice challengeRaw 0 33
          let challengerKeySeq := challengeRaw.getD 33 0
          let challengerEcdhPub := slice challengeRaw 34 67
          let initiatorNonce := slice challengeRaw 67 99
          let challengePayload := slice challengeRaw 0 103
          let challengeSig := slice challengeRaw 103 167
          if ¬ C.verify challengePayload challengeSig challengerPubKey then
            ⟨st, [], some .VERIFICATION_FAILED⟩
          else
            let responsePayload :=
              run.myPub ++ [run.myKeySeq % 256] ++ run.myEcdhPub ++ run.responderNonce
                ++ initiatorNonce ++ be32 run.now
            let responseSig := C.sign responsePayload
            let responseFrame := BOND_RESPONSE :: (responsePayload ++ responseSig)
            match run.confirm with
            | none => ⟨st, [responseFrame], some .NEGOTIATION_TIMEOUT⟩
            | some confirmRaw =>
              if confirmRaw.length < 167 then
                ⟨st, [responseFrame], some .NEGOTIATION_FAILED⟩
              else
                let confirmPubKey := slice confirmRaw 0 33
                let echoedResponderNonce := slice confirmRaw 67 99
                let confirmPayload := slice confirmRaw 0 103
                let confirmSig := slice confirmRaw 103 167
                if echoedResponderNonce ≠ run.responderNonce then
                  ⟨st, [responseFrame], some .VERIFICATION_FAILED⟩
                else if ¬ C.verify confirmPayload confirmSig confirmPubKey then
                  ⟨st, [responseFrame], some .VERIFICATION_FAILED⟩
                else
                  let sharedSecret :=
                    C.ecdhDerive challengerEcdhPub "node-zero-bond-v1"
                      (initiatorNonce ++ run.responderNonce)
                  ⟨createBondRecord st initiatorNodeId initiatorPublicKey
                      challengerKeySeq sharedSecret run.now,
                    [responseFrame], none⟩

/-! ### Inbound encrypted data dispatch (channel-manager.ts, handleBondData) -/

/-- Message types of `BondMessage` (`types/bond.ts`). -/
inductive MessageType
  | STATE_UPDATE
  | VAULT_REQUEST
  | VAULT_GRANT
  | VAULT_FRAGMENT
  | PING
  | CUSTOM
  deriving DecidableEq, Repr

/-- Function `decodeMessageType` (channel-manager.ts, lines 925-936). -/
def decodeMessageType (code : ℕ) : MessageType :=
  if code = 0x01 then .STATE_UPDATE
  else if code = 0x02 then .VAULT_REQUEST
  else if code = 0x03 then .VAULT_GRANT
  else if code = 0x04 then .VAULT_FRAGMENT
  else if code = 0x05 then .PING
  else .CUSTOM

/-- The `BondMessage` record (`types/bond.ts`) as decoded by `handleBondData`. -/
structure BondMessage where
  type : MessageType
  payload : List ℕ
  timestamp : ℕ
  senderId : String
  deriving DecidableEq, Repr

/-- Method `ChannelManager.updateBondChannel` (channel-manager.ts, lines
880-899): replace the bond wholesale with `lastInteraction` set and
`totalExchanges` increased; no-op when the peer has no bond. -/
def updateBondChannel (st : ChanState) (peerId : String) (timestamp : ℕ)
    (exchangesDelta : ℕ) : ChanState :=
  match assocGet peerId st.bonds with
  | none => st
  | some existing =>
    { st with
      bonds := assocSet peerId
        { existing with
          channel :=
            { existing.channel with
              lastInteraction := timestamp
              totalExchanges := existing.channel.totalExchanges + exchangesDelta } }
        st.bonds }

/-- The interaction-counter update performed by `handleBondData` on the
decrypting bond (channel-manager.ts, lines 777-783): bump `recvCount` and,
when a prior local send exists, record a response-latency sample. -/
def recordReceive (st : ChanState) (peerId : String) (nowMs : ℕ) : ChanState :=
  match assocGet peerId st.interactions with
  | none => st
  | some tr =>
    { st with
      interactions := assocSet peerId
        { tr with
          recvCount := tr.recvCount + 1
          responseTimesMs :=
            if 0 < tr.lastMessageSentAt then
              tr.responseTimesMs ++ [nowMs - tr.lastMessageSentAt]
            else tr.responseTimesMs }
        st.interactions }

/-- Decryption payload parsing in `handleBondData` (channel-manager.ts, lines
755-772): `type(1) ‖ timestamp(4, BE) ‖ senderIdLen(1) ‖ senderId ‖ payload`.
`textDecode` stands for `TextDecoder.decode`. -/
def parseBondMessage (textDecode : List ℕ → String) (plaintext : List ℕ) :
    BondMessage :=
  let typeCode := plaintext.getD 0 0
  let timestamp := beVal32 (slice plaintext 1 5)
  let senderIdLen := plaintext.getD 5 0
  let senderId := textDecode (slice plaintext 6 (6 + senderIdLen))
  let msgPayload := plaintext.drop (6 + senderIdLen)
  ⟨decodeMessageType typeCode, msgPayload, timestamp, senderId⟩

/-- The bond-trial loop of `ChannelManager.handleBondData` (channel-manager.ts,
lines 744-798): walk the bond map in insertion order; skip non-ACTIVE bonds and
bonds whose key fails to decrypt (`aesGcmDecrypt` throwing is `none`); skip a
successful decryption shorter than 6 bytes; at the first remaining bond update
the bond channel and interaction counters and dispatch the single decoded
message, then stop. -/
def handleBondDataLoop (decrypt : List ℕ → List ℕ → List ℕ → Option (List ℕ))
    (textDecode : List ℕ → String) (st : ChanState) (nonce ciphertext : List ℕ)
    (nowSec nowMs : ℕ) : List (String × Bond) → ChanState × List BondMessage
  | [] => (st, [])
  | (peerId, bond) :: rest =>
    if bond.channel.status ≠ .ACTIVE then
      handleBondDataLoop decrypt textDecode st nonce ciphertext nowSec nowMs rest
    else
      match decrypt bond.channel.sharedSecret ciphertext nonce with
      | none => handleBondDataLoop decrypt textDecode st nonce ciphertext nowSec nowMs rest
      | some plaintext =>
        if plaintext.length < 6 then
          handleBondDataLoop decrypt textDecode st nonce ciphertext nowSec nowMs rest
        else
          let message := parseBondMessage textDecode plaintext
          let st1 := updateBondChannel st peerId nowSec 1
          let st2 := recordReceive st1 peerId nowMs
          (st2, [message])

/-- Method `ChannelManager.handleBondData` (channel-manager.ts, lines 738-799):
drop frames shorter than 13 bytes, split off the 12-byte nonce, and try every
bond in insertion order.  The returned list contains the message delivered to
the registered listeners (each listener is invoked once per entry). -/
def handleBondData (decrypt : List ℕ → List ℕ → List ℕ → Option (List ℕ))
    (textDecode : List ℕ → String) (st : ChanState) (payload : List ℕ)
    (nowSec nowMs : ℕ) : ChanState × List BondMessage :=
  if payload.length < 13 then (st, [])
  else
    let nonce := slice payload 0 12
    let ciphertext := payload.drop 12
    handleBondDataLoop decrypt textDecode st nonce ciphertext nowSec nowMs st.bonds

/-- The peer owning the first ACTIVE bond in map order whose shared secret
decrypts the frame at all (regardless of the decoded length) — the bond the
specification designates as the one to be updated. -/
def firstDecryptingPeer (decrypt : List ℕ → List ℕ → List ℕ → Option (List ℕ))
    (nonce ciphertext : List ℕ) : List (String × Bond) → Option String
  | [] => none
  | (peerId, bond) :: rest =>
    if bond.channel.status = .ACTIVE ∧
        (decrypt bond.channel.sharedSecret ciphertext nonce).isSome then
      some peerId
    else firstDecryptingPeer decrypt nonce ciphertext rest

/-- The peer owning the first ACTIVE bond in map order whose shared secret
decrypts the frame to a plaintext of at least 6 bytes — the bond the code
actually updates. -/
def firstWellFormedPeer (decrypt : List ℕ → List ℕ → List ℕ → Option (List ℕ))
    (nonce ciphertext : List ℕ) : List (String × Bond) → Option (String × List ℕ)
  | [] => none
  | (peerId, bond) :: rest =>
    match decrypt bond.channel.sharedSecret ciphertext nonce with
    | some plaintext =>
      if bond.channel.status = .ACTIVE ∧ 6 ≤ plaintext.length then
        some (peerId, plaintext)
      else firstWellFormedPeer decrypt nonce ciphertext rest
    | none => firstWellFormedPeer decrypt nonce ciphertext rest

/-! ### Wire codec (codec.ts) -/

/-- Decode failures of the codec, as thrown by the deserializers: a failed
length precondition, or (never reached on the proofs below) an out-of-bounds
read. -/
inductive DecodeError
  | badLength (expected got : ℕ)
  | shortBuffer (minimum got : ℕ)
  | outOfBounds
  deriving DecidableEq, Repr

/-- Bounds-checked single-byte read: every `buffer[i]` in a decoder goes
through this, so a successful decode implies no out-of-bounds access. -/
def readByte (buf : List ℕ) (i : ℕ) : Except DecodeError ℕ :=
  if i < buf.length then .ok (buf.getD i 0) else .error .outOfBounds

/-- Bounds-checked contiguous read of `len` bytes at `start`
(`buffer.slice(start, start + len)`). -/
def readSlice (buf : List ℕ) (start len : ℕ) : Except DecodeError (List ℕ) :=
  if start + len ≤ buf.length then .ok (slice buf start (start + len))
  else .error .outOfBounds

/-- The `StateUpdateMessage` fields read by the codec (`types/state.ts`). -/
structure StateUpdateMessage where
  publicKey : List ℕ
  keySequence : ℕ
  urgency : ℕ
  emotional : ℕ
  cognitive : ℕ
  timestamp : ℕ
  signature : List ℕ
  deriving DecidableEq, Repr

/-- Function `deserializeStateUpdate` (codec.ts, lines 84-118): reject any
buffer whose length is not exactly 105, then read identity (34), state data
(7, with a big-endian 4-byte timestamp) and signature (64). -/
def deserializeStateUpdate (buffer : List ℕ) : Except DecodeError StateUpdateMessage :=
  if buffer.length ≠ 105 then .error (.badLength 105 buffer.length)
  else do
    let publicKey ← readSlice buffer 0 33
    let keySequence ← readByte buffer 33
    let urgency ← readByte buffer 34
    let emotional ← readByte buffer 35
    let cognitive ← readByte buffer 36
    let t0 ← readByte buffer 37
    let t1 ← readByte buffer 38
    let t2 ← readByte buffer 39
    let t3 ← readByte buffer 40
    let signature ← readSlice buffer 41 64
    .ok ⟨publicKey, keySequence, urgency, emotional, cognitive,
      t0 * 2 ^ 24 + t1 * 2 ^ 16 + t2 * 2 ^ 8 + t3, signature⟩

/-- The `BondHandshakePacket` fields read by the codec (`types/bond.ts`).
`qValueBits` is the big-endian 32-bit pattern of the float32 `qValue`; its
IEEE-754 interpretation plays no role in the length/bounds properties. -/
structure BondHandshakePacket where
  packetType : ℕ
  subType : ℕ
  publicKey : List ℕ
  qValueBits : ℕ
  crc : ℕ
  deriving DecidableEq, Repr

/-- Function `deserializeBondHandshake` (codec.ts, lines 159-180): reject any
buffer whose length is not exactly 43, then read type, subtype, the 33-byte
key, the 4-byte float32 pattern and the 4-byte CRC. -/
def deserializeBondHandshake (buffer : List ℕ) : Except DecodeError BondHandshakePacket :=
  if buffer.length ≠ 43 then .error (.badLength 43 buffer.length)
  else do
    let packetType ← readByte buffer 0
    let subType ← readByte buffer 1
    let publicKey ← readSlice buffer 2 33
    let qBytes ← readSlice buffer 35 4
    let crcBytes ← readSlice buffer 39 4
    .ok ⟨packetType, subType, publicKey, beVal32 qBytes, beVal32 crcBytes⟩

/-- The `VaultFragment` fields read by the codec (`types/vault.ts`). -/
structure VaultFragment where
  packetType : ℕ
  layerIndex : ℕ
  seqCurrent : ℕ
  seqTotal : ℕ
  payload : List ℕ
  deriving DecidableEq, Repr

/-- Function `deserializeVaultFragment` (codec.ts, lines 203-217): reject any
buffer shorter than the 4-byte header, unpack the nibble-packed 8-bit
sequence numbers, and take the rest as payload. -/
def deserializeVaultFragment (buffer : List ℕ) : Except DecodeError VaultFragment :=
  if buffer.length < 4 then .error (.shortBuffer 4 buffer.length)
  else do
    let b0 ← readByte buffer 0
    let b1 ← readByte buffer 1
    let b2 ← readByte buffer 2
    let b3 ← readByte buffer 3
    .ok ⟨b0, b1, (b2 >>> 4) ||| ((b3 &&& 0x0f) <<< 4),
      (b2 &&& 0x0f) ||| ((b3 >>> 4) <<< 4), buffer.drop 4⟩

/-! ### Concrete instances used to exercise the definitions -/

/-- Instantiation of the abstract ECDH primitive layer over the additive group
`ℤ` with base point 1, identity compression and a KDF that returns the raw
bits; used to evaluate `deriveSharedSecret` on concrete scalars. -/
def intECDHModel : ECDHModel ℤ ℤ ℤ :=
  ⟨1, id, id, id, fun s _ _ => s⟩

/-- A collaborator instance whose node-ids are the decimal of the key's first
byte, whose signatures are 64 zero bytes, and whose `verify` always succeeds. -/
def exampleCrypto : CryptoOps where
  deriveNodeId := fun b => toString (b.headD 0)
  sign := fun _ => List.replicate 64 0
  verify := fun _ _ _ => true
  ecdhDerive := fun _ _ _ => List.replicate 32 0

/-- An ACTIVE bond shaped exactly like the output of `createBondRecord`. -/
def exampleBond (id : String) (pub secret : List ℕ) : Bond :=
  { version := 1
    partner := ⟨id, pub, 0⟩
    trust := ⟨5 / 10, ⟨5 / 10, 5 / 10, 1, 1⟩, scoreToTier ((5 : ℚ) / 10)⟩
    channel := ⟨secret, 0, 0, .ACTIVE⟩
    permissions := ⟨[], .VOLTAGE⟩
    createdAt := 0 }

/-- A state holding four ACTIVE bonds with peers `"0"`..`"3"`. -/
def exampleState4 : ChanState :=
  ⟨[("0", exampleBond "0" [0] (List.replicate 32 0)),
    ("1", exampleBond "1" [1] (List.replicate 32 0)),
    ("2", exampleBond "2" [2] (List.replicate 32 0)),
    ("3", exampleBond "3" [3] (List.replicate 32 0))], []⟩

/-- An `initiate` run whose `BondResponse` wait times out. -/
def exampleRunTimeout : InitiateRun := ⟨[], 0, [], [], 0, 0, none⟩

/-- An `accept` run whose `BondChallenge` wait times out. -/
def exampleAcceptTimeout : AcceptRun := ⟨[], 0, [], [], 0, none, none⟩

/-- An `initiate` run that receives a 199-byte `BondResponse` of 7-bytes whose
echoed-nonce field cannot match the freshly drawn nonce of 9-bytes. -/
def exampleNonceRun : InitiateRun :=
  ⟨List.replicate 33 5, 0, List.replicate 33 6, List.replicate 32 9, 0, 0,
    some (List.replicate 199 7)⟩

/-- A decrypt oracle under which the secret `[1]` yields a 2-byte plaintext
(shorter than the 6-byte header) and the secret `[2]` yields a well-formed
6-byte plaintext. -/
def exampleDecrypt : List ℕ → List ℕ → List ℕ → Option (List ℕ) :=
  fun secret _ _ =>
    if secret = [1] then some [9, 9]
    else if secret = [2] then some (List.replicate 6 1)
    else none

/-- A trivial text decoder for the examples. -/
def exampleTextDecode : List ℕ → String := fun _ => "s"

/-- A state with two ACTIVE bonds `"a"` (secret `[1]`) and `"b"` (secret `[2]`). -/
def exampleState2 : ChanState :=
  ⟨[("a", exampleBond "a" [10] [1]), ("b", exampleBond "b" [11] [2])],
    [("a", ⟨0, 0, [], [], 0⟩), ("b", ⟨0, 0, [], [], 0⟩)]⟩

/-- A point on P-256 with x = 0: the uncompressed key bytes. -/
def exampleP256Key : List ℕ :=
  [4, 0, 0, 0, 0, 0, 0, 0, 0, 0, 0, 0, 0,
    0, 0, 0, 0, 0, 0, 0, 0, 0, 0, 0, 0, 0,
    0, 0, 0, 0, 0, 0, 0, 102, 72, 92, 120, 14, 47,
    131, 215, 36, 51, 189, 93, 132, 160, 107, 182, 84, 28, 42,
    243, 29, 174, 135, 23, 40, 191, 133, 106, 23, 79, 147, 244]

/-! ## Theorems -/

/-- C1: For every pair of valid P-256 key pairs A and B, and for every label
string and salt, `deriveSharedSecret(A's private key, B's compressed public
key, label, salt)` returns the same 32-byte secret as
`deriveSharedSecret(B's private key, A's compressed public key, label, salt)`.
The curve layer is the abstract `ECDHModel`; the hypothesis is that
decompression inverts compression (proved at the byte level separately). -/
theorem c1_deriveSharedSecret_symmetric {Point CKey Secret : Type}
    [AddCommGroup Point] (M : ECDHModel Point CKey Secret)
    (hround : ∀ P : Point, M.decompress (M.compress P) = P)
    (a b : ℕ) (label : String) (salt : List ℕ) :
    deriveSharedSecret M a (publicKeyOfPrivate M b) label salt =
      deriveSharedSecret M b (publicKeyOfPrivate M a) label salt := by
  unfold deriveSharedSecret publicKeyOfPrivate
  rw [hround, hround, smul_smul, smul_smul, Nat.mul_comm]

/-- Witness for C1: the symmetry theorem applied at the `ℤ` instantiation
with private scalars 2 and 3. -/
theorem c1_witness :
    deriveSharedSecret intECDHModel 2 (publicKeyOfPrivate intECDHModel 3)
        "node-zero-bond-v1" (List.replicate 32 0) =
      deriveSharedSecret intECDHModel 3 (publicKeyOfPrivate intECDHModel 2)
        "node-zero-bond-v1" (List.replicate 32 0) :=
  c1_deriveSharedSecret_symmetric intECDHModel (fun _ => rfl) 2 3 _ _

/-- C4: For a freshly created bond (careScore 0.5, tier STRUT, all interaction
counters zero, no response-time samples), `updateCareScore` with zero elapsed
days produces a care score of 0.55 (= 11/20: frequency 0, reciprocity 0.5,
consistency 1, responsiveness 1 under weights 0.3/0.3/0.2/0.2) and moves the
tier from STRUT (the fresh tier of score 0.5) to COHERENT. -/
theorem c4_fresh_bond_update :
    scoreToTier ((5 : ℝ) / 10) none = .STRUT ∧
    updateCareScoreModel ⟨0, 0, [], [], 0⟩ .STRUT 0 = (11 / 20, .COHERENT) := by
  constructor
  · simp only [scoreToTier, defaultTierThresholds, reduceCtorEq, if_false]
    norm_num
  · simp only [updateCareScoreModel, rawScoreOf, recalculateCareScore,
      scoreToTier, defaultTierThresholds, Option.some.injEq, reduceCtorEq, if_false]
    norm_num

/-- C5 (amended): with thresholds strut 0.2 / coherent 0.5 / resonant 0.8 and
hysteresis H = 0.02, the node drops out of its current tier X only when the
score falls strictly below `threshold(X) - H`, and is promoted into a higher
tier Y only when the score reaches `threshold(Y) + H` or above (the code
compares with `>=`, so the boundary value itself already promotes). -/
theorem c5_tier_hysteresis (s : ℚ) (cur : TrustTier) :
    (tierRank (scoreToTier s (some cur)) < tierRank cur →
      s < tierThreshold cur - 2 / 100) ∧
    (tierRank cur < tierRank (scoreToTier s (some cur)) →
      tierThreshold (scoreToTier s (some cur)) + 2 / 100 ≤ s) := by
  rcases cur <;>
    · simp only [scoreToTier, defaultTierThresholds, tierThreshold]
      split_ifs with h1 h2 h3 <;>
        simp_all [tierRank, tierThreshold, defaultTierThresholds] <;> linarith

/-- Counterexample for C5 as stated: from GHOST, a score of exactly
`coherent + H = 0.52` is promoted to COHERENT although it has not risen
strictly above `threshold(COHERENT) + H`. -/
theorem c5_counterexample :
    scoreToTier ((52 : ℚ) / 100) (some .GHOST) = .COHERENT ∧
    ¬ ((5 : ℚ) / 10 + 2 / 100 < 52 / 100) := by
  refine ⟨?_, by norm_num⟩
  norm_num [scoreToTier, defaultTierThresholds]

/-- Witness for C5: the hysteresis theorem applied at score 0.1 from STRUT,
which drops (to GHOST), so 0.1 is below `threshold(STRUT) - H`. -/
theorem c5_witness : (1 : ℚ) / 10 < tierThreshold TrustTier.STRUT - 2 / 100 :=
  (c5_tier_hysteresis (1 / 10) .STRUT).1
    (by norm_num [scoreToTier, defaultTierThresholds, tierRank])

/-- C6: For every score s in [0,1] and nonnegative elapsed days t, the decay
step returns `s * e^(-(ln 2 / 14) * t)`; applying exactly 14 days of decay
halves the score; and recalculation applies decay only for a strictly positive
elapsed-days argument (otherwise the raw score is kept). -/
theorem c6_exponential_decay (s t : ℝ) (hs0 : 0 ≤ s) (hs1 : s ≤ 1) (ht : 0 ≤ t) :
    applyDecay s t = s * Real.exp (-(Real.log 2 / 14) * t) ∧
    applyDecay s 14 = s / 2 ∧
    ∀ (tr : Tracking) (cur : TrustTier) (d : ℝ), d ≤ 0 →
      (updateCareScoreModel tr cur d).1 = rawScoreOf tr := by
  refine ⟨?_, ?_, ?_⟩
  · simp only [applyDecay, halfLifeDays]
    exact max_eq_right (mul_nonneg hs0 (Real.exp_nonneg _))
  · simp only [applyDecay, halfLifeDays]
    rw [show -(Real.log 2 / 14) * 14 = -Real.log 2 by ring, Real.exp_neg,
      Real.exp_log (by norm_num : (0 : ℝ) < 2)]
    rw [max_eq_right (mul_nonneg hs0 (by norm_num))]
    rw [div_eq_mul_inv]
  · intro tr cur d hd
    simp only [updateCareScoreModel]
    rw [if_neg (not_lt.mpr hd)]

/-- Witness for C6: one half-life from score 1 yields 1/2. -/
theorem c6_witness : applyDecay 1 14 = (1 : ℝ) / 2 :=
  (c6_exponential_decay 1 14 zero_le_one le_rfl (by norm_num)).2.1

/-- Every `initiate` run either fails leaving the state untouched, or succeeds
and ends in exactly the state produced by `createBondRecord`. -/
theorem initiate_result (C : CryptoOps) (st : ChanState) (target : List ℕ)
    (run : InitiateRun) :
    ((initiate C st target run).err.isSome ∧ (initiate C st target run).state = st) ∨
    ((initiate C st target run).err = none ∧ ∃ ks ss,
      (initiate C st target run).state =
        createBondRecord st (C.deriveNodeId target) target ks ss run.now) := by
  simp only [initiate]
  split_ifs with h1 h2
  · exact Or.inl ⟨rfl, rfl⟩
  · exact Or.inl ⟨rfl, rfl⟩
  · cases hr : run.response with
    | none => exact Or.inl ⟨rfl, rfl⟩
    | some raw =>
      dsimp only
      split_ifs with h3 h4 h5 <;>
        first
        | exact Or.inl ⟨rfl, rfl⟩
        | exact Or.inr ⟨rfl, _, _, rfl⟩

/-- Every `accept` run either fails leaving the state untouched, or succeeds
and ends in exactly the state produced by `createBondRecord`. -/
theorem accept_result (C : CryptoOps) (st : ChanState) (initKey : List ℕ)
    (run : AcceptRun) :
    ((accept C st initKey run).err.isSome ∧ (accept C st initKey run).state = st) ∨
    ((accept C st initKey run).err = none ∧ ∃ ks ss,
      (accept C st initKey run).state =
        createBondRecord st (C.deriveNodeId initKey) initKey ks ss run.now) := by
  simp only [accept]
  split_ifs with h1 h2
  · exact Or.inl ⟨rfl, rfl⟩
  · exact Or.inl ⟨rfl, rfl⟩
  · cases hc : run.challenge with
    | none => exact Or.inl ⟨rfl, rfl⟩
    | some chalRaw =>
      dsimp only
      split_ifs with h3 h4
      all_goals try exact Or.inl ⟨rfl, rfl⟩
      cases hk : run.confirm with
        | none => exact Or.inl ⟨rfl, rfl⟩
        | some confRaw =>
          dsimp only
          split_ifs with h5 h6 h7 <;>
            first
            | exact Or.inl ⟨rfl, rfl⟩
            | exact Or.inr ⟨rfl, _, _, rfl⟩

/-- C2: Every execution of `initiate` or `accept` that ends in an error
(timeout, undersized message, signature or nonce failure) leaves the bond
store and the interaction-counter store exactly as they were, and a
BondRecord (with its fresh interaction counters) is added exactly when the
final phase completes with no error. -/
theorem c2_no_partial_bond (C : CryptoOps) (st : ChanState)
    (target initKey : List ℕ) (ri : InitiateRun) (ra : AcceptRun) :
    ((initiate C st target ri).err.isSome → (initiate C st target ri).state = st) ∧
    ((initiate C st target ri).err = none → ∃ ks ss,
      (initiate C st target ri).state =
        createBondRecord st (C.deriveNodeId target) target ks ss ri.now) ∧
    ((accept C st initKey ra).err.isSome → (accept C st initKey ra).state = st) ∧
    ((accept C st initKey ra).err = none → ∃ ks ss,
      (accept C st initKey ra).state =
        createBondRecord st (C.deriveNodeId initKey) initKey ks ss ra.now) := by
  refine ⟨fun h => ?_, fun h => ?_, fun h => ?_, fun h => ?_⟩
  · rcases initiate_result C st target ri with ⟨_, hs⟩ | ⟨he, _⟩
    · exact hs
    · rw [he] at h; exact absurd h (by simp)
  · rcases initiate_result C st target ri with ⟨he, _⟩ | ⟨_, hs⟩
    · rw [h] at he; exact absurd he (by simp)
    · exact hs
  · rcases accept_result C st initKey ra with ⟨_, hs⟩ | ⟨he, _⟩
    · exact hs
    · rw [he] at h; exact absurd h (by simp)
  · rcases accept_result C st initKey ra with ⟨he, _⟩ | ⟨_, hs⟩
    · rw [h] at he; exact absurd he (by simp)
    · exact hs

/-- Witness for C2: a timed-out `initiate` from the empty state leaves the
state unchanged. -/
theorem c2_witness :
    (initiate exampleCrypto ⟨[], []⟩ [] exampleRunTimeout).state = ⟨[], []⟩ :=
  (c2_no_partial_bond exampleCrypto ⟨[], []⟩ [] []
    exampleRunTimeout exampleAcceptTimeout).1 (by rfl)

/-- C3 (amended): with 4 or more ACTIVE bonds both `initiate` and `accept`
fail with a topology violation before transmitting any bytes; and with fewer
than 4 ACTIVE bonds, an `initiate` towards an already-bonded peer fails with
an already-bonded error before transmitting any bytes (the topology check
runs first, so with 4 ACTIVE bonds even an already-bonded target reports the
topology violation). -/
theorem c3_topology_and_duplicate (C : CryptoOps) (st : ChanState)
    (target initKey : List ℕ) (ri : InitiateRun) (ra : AcceptRun) :
    (MAX_BONDS_PER_CELL ≤ getActiveBondCount st →
      initiate C st target ri = ⟨st, [], some .TOPOLOGY_VIOLATION⟩ ∧
      accept C st initKey ra = ⟨st, [], some .TOPOLOGY_VIOLATION⟩) ∧
    (getActiveBondCount st < MAX_BONDS_PER_CELL →
      (assocGet (C.deriveNodeId target) st.bonds).isSome = true →
      initiate C st target ri = ⟨st, [], some .ALREADY_BONDED⟩) := by
  constructor
  · intro h
    constructor
    · simp only [initiate]
      rw [if_pos h]
    · simp only [accept]
      rw [if_pos h]
  · intro h1 h2
    simp only [initiate]
    rw [if_neg (not_le.mpr h1), if_pos h2]

set_option maxRecDepth 40000 in
/-- Counterexample for C3 as stated: in a state with 4 ACTIVE bonds one of
which is the target, `initiate` against the already-bonded target fails with
TOPOLOGY_VIOLATION, not with the already-bonded error the claim requires. -/
theorem c3_counterexample :
    (assocGet (exampleCrypto.deriveNodeId [3]) exampleState4.bonds).isSome = true ∧
    (initiate exampleCrypto exampleState4 [3] exampleRunTimeout).err =
      some ChanErrorCode.TOPOLOGY_VIOLATION ∧
    ChanErrorCode.TOPOLOGY_VIOLATION ≠ ChanErrorCode.ALREADY_BONDED :=
  ⟨rfl, rfl, by decide⟩

set_option maxRecDepth 40000 in
/-- Witness for C3: a fifth `initiate` against four ACTIVE bonds fails with
the topology violation and transmits nothing. -/
theorem c3_witness :
    initiate exampleCrypto exampleState4 [9] exampleRunTimeout =
      ⟨exampleState4, [], some ChanErrorCode.TOPOLOGY_VIOLATION⟩ :=
  ((c3_topology_and_duplicate exampleCrypto exampleState4 [9] [9]
    exampleRunTimeout exampleAcceptTimeout).1 (by decide)).1

/-- C7: a `BondResponse` whose echoed nonce differs from the nonce sent in the
challenge is rejected with VERIFICATION_FAILED.  The theorem holds for every
`CryptoOps`, in particular for one whose `verify` always returns `true`: the
nonce check is decided before and independently of signature validity. -/
theorem c7_nonce_mismatch_rejected (C : CryptoOps) (st : ChanState)
    (target : List ℕ) (ri : InitiateRun) (raw : List ℕ)
    (htopo : getActiveBondCount st < MAX_BONDS_PER_CELL)
    (hnew : assocGet (C.deriveNodeId target) st.bonds = none)
    (hresp : ri.response = some raw)
    (hlen : 199 ≤ raw.length)
    (hnonce : slice raw 99 131 ≠ ri.initiatorNonce) :
    initiate C st target ri =
      ⟨st, [challengeFrameOf C ri], some .VERIFICATION_FAILED⟩ := by
  simp only [initiate, hnew, Option.isSome_none]
  rw [if_neg (not_le.mpr htopo), if_neg (by simp), hresp]
  simp only [if_neg (not_lt.mpr hlen), if_pos hnonce]

set_option maxRecDepth 40000 in
/-- Witness for C7: a concrete mismatching response under a `verify` that
always succeeds is still rejected with VERIFICATION_FAILED. -/
theorem c7_witness :
    initiate exampleCrypto ⟨[], []⟩ [1] exampleNonceRun =
      ⟨⟨[], []⟩, [challengeFrameOf exampleCrypto exampleNonceRun],
        some ChanErrorCode.VERIFICATION_FAILED⟩ :=
  c7_nonce_mismatch_rejected exampleCrypto ⟨[], []⟩ [1] exampleNonceRun
    (List.replicate 199 7) (by decide) rfl rfl (by decide) (by decide)

/-- The bond-trial loop hits exactly the first ACTIVE bond whose key decrypts
the frame to a plaintext of at least 6 bytes, and otherwise changes nothing. -/
theorem handleBondDataLoop_spec
    (decrypt : List ℕ → List ℕ → List ℕ → Option (List ℕ))
    (textDecode : List ℕ → String) (st : ChanState) (nonce ciphertext : List ℕ)
    (nowSec nowMs : ℕ) (bonds : List (String × Bond)) :
    handleBondDataLoop decrypt textDecode st nonce ciphertext nowSec nowMs bonds =
      match firstWellFormedPeer decrypt nonce ciphertext bonds with
      | none => (st, [])
      | some (pid, pt) =>
        (recordReceive (updateBondChannel st pid nowSec 1) pid nowMs,
          [parseBondMessage textDecode pt]) := by
  induction bonds with
  | nil => rfl
  | cons kv rest ih =>
    obtain ⟨peerId, bond⟩ := kv
    by_cases hact : bond.channel.status = .ACTIVE
    · cases hd : decrypt bond.channel.sharedSecret ciphertext nonce with
      | none => simpa [handleBondDataLoop, firstWellFormedPeer, hact, hd] using ih
      | some pt =>
        by_cases hlen : pt.length < 6
        · simpa [handleBondDataLoop, firstWellFormedPeer, hact, hd, hlen,
            not_le.mpr hlen] using ih
        · simp [handleBondDataLoop, firstWellFormedPeer, hact, hd, hlen,
            not_lt.mp hlen]
    · cases hd : decrypt bond.channel.sharedSecret ciphertext nonce with
      | none => simpa [handleBondDataLoop, firstWellFormedPeer, hact, hd] using ih
      | some pt =>
        have hnot : ¬ (bond.channel.status = .ACTIVE ∧ 6 ≤ pt.length) := by
          intro hc; exact absurd hc.1 hact
        simpa [handleBondDataLoop, firstWellFormedPeer, hact, hd, hnot] using ih

/-- C10 (amended): an inbound data frame invokes the listeners at most once;
a short frame changes nothing; and otherwise the result is exactly determined
by the first ACTIVE bond whose key decrypts the frame to a plaintext of at
least 6 bytes — that single bond's channel counters and interaction counters
are updated and the single decoded message is dispatched; when no such bond
exists, no state changes and nothing is dispatched. -/
theorem c10_dispatch_updates_one_bond
    (decrypt : List ℕ → List ℕ → List ℕ → Option (List ℕ))
    (textDecode : List ℕ → String) (st : ChanState) (payload : List ℕ)
    (nowSec nowMs : ℕ) :
    (handleBondData decrypt textDecode st payload nowSec nowMs).2.length ≤ 1 ∧
    (payload.length < 13 →
      handleBondData decrypt textDecode st payload nowSec nowMs = (st, [])) ∧
    (13 ≤ payload.length →
      handleBondData decrypt textDecode st payload nowSec nowMs =
        match firstWellFormedPeer decrypt (slice payload 0 12) (payload.drop 12)
            st.bonds with
        | none => (st, [])
        | some (pid, pt) =>
          (recordReceive (updateBondChannel st pid nowSec 1) pid nowMs,
            [parseBondMessage textDecode pt])) := by
  refine ⟨?_, fun h => ?_, fun h => ?_⟩
  · by_cases h : payload.length < 13
    · simp [handleBondData, h]
    · rw [handleBondData, if_neg h, handleBondDataLoop_spec]
      cases firstWellFormedPeer decrypt (slice payload 0 12) (payload.drop 12)
          st.bonds with
      | none => simp
      | some v => simp
  · simp [handleBondData, h]
  · rw [handleBondData, if_neg (not_lt.mpr h), handleBondDataLoop_spec]

/-- Counterexample for C10 as stated: under a decrypt oracle where the first
ACTIVE bond's key decrypts the frame (to a 2-byte plaintext) and the second
bond's key decrypts it to a well-formed plaintext, the code updates the
second bond, not the first bond whose shared secret decrypts the frame. -/
theorem c10_counterexample :
    firstDecryptingPeer exampleDecrypt (slice (List.replicate 13 0) 0 12)
        ((List.replicate 13 0).drop 12) exampleState2.bonds = some "a" ∧
    ((handleBondData exampleDecrypt exampleTextDecode exampleState2
        (List.replicate 13 0) 5 6).1.bonds.map
      (fun kv => (kv.1, kv.2.channel.totalExchanges))) = [("a", 0), ("b", 1)] ∧
    ("a" : String) ≠ "b" :=
  ⟨rfl, rfl, by decide⟩

/-- Witness for C10: a 1-byte frame changes nothing and dispatches nothing. -/
theorem c10_witness :
    handleBondData exampleDecrypt exampleTextDecode exampleState2 [0] 0 0 =
      (exampleState2, []) :=
  (c10_dispatch_updates_one_bond exampleDecrypt exampleTextDecode exampleState2
    [0] 0 0).2.1 (by decide)

/-- C9: every decoder checks its length precondition before interpreting
bytes: `deserializeStateUpdate` rejects any buffer whose length is not exactly
105, `deserializeBondHandshake` any buffer whose length is not exactly 43, and
`deserializeVaultFragment` any buffer shorter than 4 bytes; on well-sized
buffers every (bounds-checked) read succeeds, so no decoder reads out of the
bounds of its input. -/
theorem c9_decoder_length_checks (buf : List ℕ) :
    (buf.length ≠ 105 →
      deserializeStateUpdate buf = .error (.badLength 105 buf.length)) ∧
    (buf.length = 105 → (deserializeStateUpdate buf).isOk = true) ∧
    (buf.length ≠ 43 →
      deserializeBondHandshake buf = .error (.badLength 43 buf.length)) ∧
    (buf.length = 43 → (deserializeBondHandshake buf).isOk = true) ∧
    (buf.length < 4 →
      deserializeVaultFragment buf = .error (.shortBuffer 4 buf.length)) ∧
    (4 ≤ buf.length → (deserializeVaultFragment buf).isOk = true) := by
  refine ⟨fun h => ?_, fun h => ?_, fun h => ?_, fun h => ?_, fun h => ?_,
    fun h => ?_⟩
  · simp [deserializeStateUpdate, h]
  · simp only [deserializeStateUpdate, readByte, readSlice, h]
    norm_num
    rfl
  · simp [deserializeBondHandshake, h]
  · simp only [deserializeBondHandshake, readByte, readSlice, h]
    norm_num
    rfl
  · simp [deserializeVaultFragment, h, Nat.not_le.mpr h]
  · have h4 : ¬ buf.length < 4 := Nat.not_lt.mpr h
    simp only [deserializeVaultFragment, if_neg h4, readByte, readSlice]
    rw [if_pos (by omega), if_pos (by omega), if_pos (by omega), if_pos (by omega)]
    rfl

/-- Witness for C9: a 105-byte zero buffer decodes as a state update, a
43-byte zero buffer decodes as a bond handshake, and a 3-byte buffer is
rejected as a short vault fragment. -/
theorem c9_witness :
    (deserializeStateUpdate (List.replicate 105 0)).isOk = true ∧
    (deserializeBondHandshake (List.replicate 43 0)).isOk = true ∧
    deserializeVaultFragment [0, 0, 0] = .error (.shortBuffer 4 3) :=
  ⟨(c9_decoder_length_checks (List.replicate 105 0)).2.1 rfl,
    (c9_decoder_length_checks (List.replicate 43 0)).2.2.2.1 rfl,
    (c9_decoder_length_checks [0, 0, 0]).2.2.2.2.1 (by decide)⟩

/-! ### Primality of the P-256 field prime

`decompressPublicKey` recovers the square root via `y2 ^ ((p+1)/4)`; its
correctness rests on Fermat's little theorem in `ZMod p256`, hence on the
primality of `p256`.  Primality is established by a chain of Lucas
certificates (`lucas_primality`), one per large prime in the recursive
factorisation of `p256 - 1`; the modular exponentiations of each certificate
are evaluated by the kernel through `modPow`, justified by
`modPowAux_correct`. -/

/-- Correctness of the square-and-multiply loop: with enough fuel and
in-range base and accumulator, `modPowAux` computes `acc * base ^ e % m`. -/
theorem modPowAux_correct (m : ℕ) (hm : 2 ≤ m) :
    ∀ (fuel e base acc : ℕ), e < 2 ^ fuel → base < m → acc < m →
      modPowAux m fuel base e acc = acc * base ^ e % m := by
  intro fuel
  induction fuel with
  | zero =>
    intro e base acc he _ ha
    have h0 : e = 0 := by simpa using he
    subst h0
    simp [modPowAux, Nat.mod_eq_of_lt ha]
  | succ n ih =>
    intro e base acc he hb ha
    rw [modPowAux]
    by_cases h0 : e = 0
    · subst h0
      simp [Nat.mod_eq_of_lt ha]
    · rw [if_neg h0]
      have he2 : e / 2 < 2 ^ n := by
        have h2 : e < 2 ^ n * 2 := by
          calc e < 2 ^ (n + 1) := he
          _ = 2 ^ n * 2 := by ring
        omega
      have hb2 : base * base % m < m := Nat.mod_lt _ (by omega)
      have hacc2 : (if e % 2 = 1 then acc * base % m else acc) < m := by
        split_ifs
        · exact Nat.mod_lt _ (by omega)
        · exact ha
      rw [ih (e / 2) (base * base % m) _ he2 hb2 hacc2]
      have hsplit : 2 * (e / 2) + e % 2 = e := Nat.div_add_mod e 2
      rcases Nat.mod_two_eq_zero_or_one e with hpar | hpar
      · rw [if_neg (by omega)]
        calc acc * (base * base % m) ^ (e / 2) % m
            = acc % m * ((base * base % m) ^ (e / 2) % m) % m := by
              rw [← Nat.mul_mod]
          _ = acc % m * ((base * base) ^ (e / 2) % m) % m := by
              rw [← Nat.pow_mod]
          _ = acc * (base * base) ^ (e / 2) % m := by rw [← Nat.mul_mod]
          _ = acc * base ^ e % m := by
              rw [show base * base = base ^ 2 by ring, ← pow_mul,
                show 2 * (e / 2) = e by omega]
      · rw [if_pos hpar]
        calc (acc * base % m) * (base * base % m) ^ (e / 2) % m
            = acc * base * (base * base % m) ^ (e / 2) % m := by
              rw [Nat.mod_mul_mod]
          _ = acc * base % m * ((base * base % m) ^ (e / 2) % m) % m := by
              rw [← Nat.mul_mod]
          _ = acc * base % m * ((base * base) ^ (e / 2) % m) % m := by
              rw [← Nat.pow_mod]
          _ = acc * base * (base * base) ^ (e / 2) % m := by
              rw [Nat.mod_mul_mod, Nat.mul_mod_mod]
          _ = acc * (base ^ (2 * (e / 2) + 1)) % m := by
              rw [show base * base = base ^ 2 by ring, ← pow_mul, pow_succ]
              ring_nf
          _ = acc * base ^ e % m := by
              rw [show 2 * (e / 2) + 1 = e by omega]
  
theorem modPow_correct (base exp m : ℕ) (hm : 2 ≤ m) (he : exp < 2 ^ 256) :
    modPow base exp m = base ^ exp % m := by
  unfold modPow
  rw [modPowAux_correct m hm 256 exp (base % m) 1 he (Nat.mod_lt _ (by omega))
    (by omega), one_mul, ← Nat.pow_mod]

theorem modPow_lt (base exp m : ℕ) (hm : 2 ≤ m) (he : exp < 2 ^ 256) :
    modPow base exp m < m := by
  rw [modPow_correct base exp m hm he]
  exact Nat.mod_lt _ (by omega)

theorem castPow_eq (n a e : ℕ) (hn : 2 ≤ n) (he : e < 2 ^ 256) :
    ((a : ZMod n)) ^ e = ((modPow a e n : ℕ) : ZMod n) := by
  rw [modPow_correct a e n hn he, ZMod.natCast_mod, Nat.cast_pow]

theorem zmodPow_eq_one (n a e : ℕ) (hn : 2 ≤ n) (he : e < 2 ^ 256)
    (h : modPow a e n = 1) : ((a : ZMod n)) ^ e = 1 := by
  rw [castPow_eq n a e hn he, h, Nat.cast_one]

theorem zmodPow_ne_one (n a e : ℕ) (hn : 2 ≤ n) (he : e < 2 ^ 256)
    (h : modPow a e n ≠ 1) : ((a : ZMod n)) ^ e ≠ 1 := by
  rw [castPow_eq n a e hn he]
  intro hc
  apply h
  have h2 : ((modPow a e n : ℕ) : ZMod n) = ((1 : ℕ) : ZMod n) := by
    rw [hc, Nat.cast_one]
  have h3 := (ZMod.natCast_eq_natCast_iff _ _ _).mp h2
  have h4 : modPow a e n < n := modPow_lt a e n hn he
  rw [Nat.ModEq, Nat.mod_eq_of_lt h4, Nat.mod_eq_of_lt (by omega)] at h3
  exact h3

set_option maxRecDepth 20000 in
/-- Lucas primality certificate for 204061199 (a factor in the chain below `p256`). -/
theorem prime_204061199 : Nat.Prime 204061199 := by
  have hfac : (204061199 : ℕ) - 1 = 2 * (11 * (23 * (107 * (3769)))) := by norm_num
  refine lucas_primality 204061199 ((11 : ℕ) : ZMod 204061199)
    (zmodPow_eq_one _ _ _ (by norm_num) (by decide) (by decide)) ?_
  intro q hq hdvd
  rw [hfac] at hdvd
  rcases (Nat.Prime.dvd_mul hq).mp hdvd with h | h
  · rw [(Nat.prime_dvd_prime_iff_eq hq (by norm_num)).mp h]
    exact zmodPow_ne_one _ _ _ (by norm_num) (by decide) (by decide)
  rcases (Nat.Prime.dvd_mul hq).mp h with h | h
  · rw [(Nat.prime_dvd_prime_iff_eq hq (by norm_num)).mp h]
    exact zmodPow_ne_one _ _ _ (by norm_num) (by decide) (by decide)
  rcases (Nat.Prime.dvd_mul hq).mp h with h | h
  · rw [(Nat.prime_dvd_prime_iff_eq hq (by norm_num)).mp h]
    exact zmodPow_ne_one _ _ _ (by norm_num) (by decide) (by decide)
  rcases (Nat.Prime.dvd_mul hq).mp h with h | h
  · rw [(Nat.prime_dvd_prime_iff_eq hq (by norm_num)).mp h]
    exact zmodPow_ne_one _ _ _ (by norm_num) (by decide) (by decide)
  rw [(Nat.prime_dvd_prime_iff_eq hq (by norm_num)).mp h]
  exact zmodPow_ne_one _ _ _ (by norm_num) (by decide) (by decide)

set_option maxRecDepth 20000 in
/-- Lucas primality certificate for 34282281433 (a factor in the chain below `p256`). -/
theorem prime_34282281433 : Nat.Prime 34282281433 := by
  have hfac : (34282281433 : ℕ) - 1 = 2 ^ 3 * (3 * (7 * (204061199))) := by norm_num
  refine lucas_primality 34282281433 ((17 : ℕ) : ZMod 34282281433)
    (zmodPow_eq_one _ _ _ (by norm_num) (by decide) (by decide)) ?_
  intro q hq hdvd
  rw [hfac] at hdvd
  rcases (Nat.Prime.dvd_mul hq).mp hdvd with h | h
  · rw [(Nat.prime_dvd_prime_iff_eq hq (by norm_num)).mp (hq.dvd_of_dvd_pow h)]
    exact zmodPow_ne_one _ _ _ (by norm_num) (by decide) (by decide)
  rcases (Nat.Prime.dvd_mul hq).mp h with h | h
  · rw [(Nat.prime_dvd_prime_iff_eq hq (by norm_num)).mp h]
    exact zmodPow_ne_one _ _ _ (by norm_num) (by decide) (by decide)
  rcases (Nat.Prime.dvd_mul hq).mp h with h | h
  · rw [(Nat.prime_dvd_prime_iff_eq hq (by norm_num)).mp h]
    exact zmodPow_ne_one _ _ _ (by norm_num) (by decide) (by decide)
  rw [(Nat.prime_dvd_prime_iff_eq hq prime_204061199).mp h]
  exact zmodPow_ne_one _ _ _ (by norm_num) (by decide) (by decide)

set_option maxRecDepth 20000 in
/-- Lucas primality certificate for 66417393611 (a factor in the chain below `p256`). -/
theorem prime_66417393611 : Nat.Prime 66417393611 := by
  have hfac : (66417393611 : ℕ) - 1 = 2 * (5 * (53 * (173 * (197 * (3677))))) := by norm_num
  refine lucas_primality 66417393611 ((6 : ℕ) : ZMod 66417393611)
    (zmodPow_eq_one _ _ _ (by norm_num) (by decide) (by decide)) ?_
  intro q hq hdvd
  rw [hfac] at hdvd
  rcases (Nat.Prime.dvd_mul hq).mp hdvd with h | h
  · rw [(Nat.prime_dvd_prime_iff_eq hq (by norm_num)).mp h]
    exact zmodPow_ne_one _ _ _ (by norm_num) (by decide) (by decide)
  rcases (Nat.Prime.dvd_mul hq).mp h with h | h
  · rw [(Nat.prime_dvd_prime_iff_eq hq (by norm_num)).mp h]
    exact zmodPow_ne_one _ _ _ (by norm_num) (by decide) (by decide)
  rcases (Nat.Prime.dvd_mul hq).mp h with h | h
  · rw [(Nat.prime_dvd_prime_iff_eq hq (by norm_num)).mp h]
    exact zmodPow_ne_one _ _ _ (by norm_num) (by decide) (by decide)
  rcases (Nat.Prime.dvd_mul hq).mp h with h | h
  · rw [(Nat.prime_dvd_prime_iff_eq hq (by norm_num)).mp h]
    exact zmodPow_ne_one _ _ _ (by norm_num) (by decide) (by decide)
  rcases (Nat.Prime.dvd_mul hq).mp h with h | h
  · rw [(Nat.prime_dvd_prime_iff_eq hq (by norm_num)).mp h]
    exact zmodPow_ne_one _ _ _ (by norm_num) (by decide) (by decide)
  rw [(Nat.prime_dvd_prime_iff_eq hq (by norm_num)).mp h]
  exact zmodPow_ne_one _ _ _ (by norm_num) (by decide) (by decide)

set_option maxRecDepth 20000 in
/-- Lucas primality certificate for 11290956913871 (a factor in the chain below `p256`). -/
theorem prime_11290956913871 : Nat.Prime 11290956913871 := by
  have hfac : (11290956913871 : ℕ) - 1 = 2 * (5 * (17 * (66417393611))) := by norm_num
  refine lucas_primality 11290956913871 ((13 : ℕ) : ZMod 11290956913871)
    (zmodPow_eq_one _ _ _ (by norm_num) (by decide) (by decide)) ?_
  intro q hq hdvd
  rw [hfac] at hdvd
  rcases (Nat.Prime.dvd_mul hq).mp hdvd with h | h
  · rw [(Nat.prime_dvd_prime_iff_eq hq (by norm_num)).mp h]
    exact zmodPow_ne_one _ _ _ (by norm_num) (by decide) (by decide)
  rcases (Nat.Prime.dvd_mul hq).mp h with h | h
  · rw [(Nat.prime_dvd_prime_iff_eq hq (by norm_num)).mp h]
    exact zmodPow_ne_one _ _ _ (by norm_num) (by decide) (by decide)
  rcases (Nat.Prime.dvd_mul hq).mp h with h | h
  · rw [(Nat.prime_dvd_prime_iff_eq hq (by norm_num)).mp h]
    exact zmodPow_ne_one _ _ _ (by norm_num) (by decide) (by decide)
  rw [(Nat.prime_dvd_prime_iff_eq hq prime_66417393611).mp h]
  exact zmodPow_ne_one _ _ _ (by norm_num) (by decide) (by decide)

set_option maxRecDepth 20000 in
/-- Lucas primality certificate for 46076956964474543 (a factor in the chain below `p256`). -/
theorem prime_46076956964474543 : Nat.Prime 46076956964474543 := by
  have hfac : (46076956964474543 : ℕ) - 1 = 2 * (23 * (18169 * (78283 * (704251)))) := by norm_num
  refine lucas_primality 46076956964474543 ((5 : ℕ) : ZMod 46076956964474543)
    (zmodPow_eq_one _ _ _ (by norm_num) (by decide) (by decide)) ?_
  intro q hq hdvd
  rw [hfac] at hdvd
  rcases (Nat.Prime.dvd_mul hq).mp hdvd with h | h
  · rw [(Nat.prime_dvd_prime_iff_eq hq (by norm_num)).mp h]
    exact zmodPow_ne_one _ _ _ (by norm_num) (by decide) (by decide)
  rcases (Nat.Prime.dvd_mul hq).mp h with h | h
  · rw [(Nat.prime_dvd_prime_iff_eq hq (by norm_num)).mp h]
    exact zmodPow_ne_one _ _ _ (by norm_num) (by decide) (by decide)
  rcases (Nat.Prime.dvd_mul hq).mp h with h | h
  · rw [(Nat.prime_dvd_prime_iff_eq hq (by norm_num)).mp h]
    exact zmodPow_ne_one _ _ _ (by norm_num) (by decide) (by decide)
  rcases (Nat.Prime.dvd_mul hq).mp h with h | h
  · rw [(Nat.prime_dvd_prime_iff_eq hq (by norm_num)).mp h]
    exact zmodPow_ne_one _ _ _ (by norm_num) (by decide) (by decide)
  rw [(Nat.prime_dvd_prime_iff_eq hq (by norm_num)).mp h]
  exact zmodPow_ne_one _ _ _ (by norm_num) (by decide) (by decide)

set_option maxRecDepth 20000 in
/-- Lucas primality certificate for 774023187263532362759620327192479577272145303 (a factor in the chain below `p256`). -/
theorem prime_774023187263532362759620327192479577272145303 : Nat.Prime 774023187263532362759620327192479577272145303 := by
  have hfac : (774023187263532362759620327192479577272145303 : ℕ) - 1 = 2 * (3 ^ 2 * (2411 * (34282281433 * (11290956913871 * (46076956964474543))))) := by norm_num
  refine lucas_primality 774023187263532362759620327192479577272145303 ((3 : ℕ) : ZMod 774023187263532362759620327192479577272145303)
    (zmodPow_eq_one _ _ _ (by norm_num) (by decide) (by decide)) ?_
  intro q hq hdvd
  rw [hfac] at hdvd
  rcases (Nat.Prime.dvd_mul hq).mp hdvd with h | h
  · rw [(Nat.prime_dvd_prime_iff_eq hq (by norm_num)).mp h]
    exact zmodPow_ne_one _ _ _ (by norm_num) (by decide) (by decide)
  rcases (Nat.Prime.dvd_mul hq).mp h with h | h
  · rw [(Nat.prime_dvd_prime_iff_eq hq (by norm_num)).mp (hq.dvd_of_dvd_pow h)]
    exact zmodPow_ne_one _ _ _ (by norm_num) (by decide) (by decide)
  rcases (Nat.Prime.dvd_mul hq).mp h with h | h
  · rw [(Nat.prime_dvd_prime_iff_eq hq (by norm_num)).mp h]
    exact zmodPow_ne_one _ _ _ (by norm_num) (by decide) (by decide)
  rcases (Nat.Prime.dvd_mul hq).mp h with h | h
  · rw [(Nat.prime_dvd_prime_iff_eq hq prime_34282281433).mp h]
    exact zmodPow_ne_one _ _ _ (by norm_num) (by decide) (by decide)
  rcases (Nat.Prime.dvd_mul hq).mp h with h | h
  · rw [(Nat.prime_dvd_prime_iff_eq hq prime_11290956913871).mp h]
    exact zmodPow_ne_one _ _ _ (by norm_num) (by decide) (by decide)
  rw [(Nat.prime_dvd_prime_iff_eq hq prime_46076956964474543).mp h]
  exact zmodPow_ne_one _ _ _ (by norm_num) (by decide) (by decide)

set_option maxRecDepth 20000 in
/-- Lucas primality certificate for 835945042244614951780389953367877943453916927241 (a factor in the chain below `p256`). -/
theorem prime_835945042244614951780389953367877943453916927241 : Nat.Prime 835945042244614951780389953367877943453916927241 := by
  have hfac : (835945042244614951780389953367877943453916927241 : ℕ) - 1 = 2 ^ 3 * (3 ^ 3 * (5 * (774023187263532362759620327192479577272145303))) := by norm_num
  refine lucas_primality 835945042244614951780389953367877943453916927241 ((11 : ℕ) : ZMod 835945042244614951780389953367877943453916927241)
    (zmodPow_eq_one _ _ _ (by norm_num) (by decide) (by decide)) ?_
  intro q hq hdvd
  rw [hfac] at hdvd
  rcases (Nat.Prime.dvd_mul hq).mp hdvd with h | h
  · rw [(Nat.prime_dvd_prime_iff_eq hq (by norm_num)).mp (hq.dvd_of_dvd_pow h)]
    exact zmodPow_ne_one _ _ _ (by norm_num) (by decide) (by decide)
  rcases (Nat.Prime.dvd_mul hq).mp h with h | h
  · rw [(Nat.prime_dvd_prime_iff_eq hq (by norm_num)).mp (hq.dvd_of_dvd_pow h)]
    exact zmodPow_ne_one _ _ _ (by norm_num) (by decide) (by decide)
  rcases (Nat.Prime.dvd_mul hq).mp h with h | h
  · rw [(Nat.prime_dvd_prime_iff_eq hq (by norm_num)).mp h]
    exact zmodPow_ne_one _ _ _ (by norm_num) (by decide) (by decide)
  rw [(Nat.prime_dvd_prime_iff_eq hq prime_774023187263532362759620327192479577272145303).mp h]
  exact zmodPow_ne_one _ _ _ (by norm_num) (by decide) (by decide)

set_option maxRecDepth 20000 in
/-- Lucas primality certificate for 115792089210356248762697446949407573530086143415290314195533631308867097853951 (a factor in the chain below `p256`). -/
theorem prime_115792089210356248762697446949407573530086143415290314195533631308867097853951 : Nat.Prime 115792089210356248762697446949407573530086143415290314195533631308867097853951 := by
  have hfac : (115792089210356248762697446949407573530086143415290314195533631308867097853951 : ℕ) - 1 = 2 * (3 * (5 ^ 2 * (17 * (257 * (641 * (1531 * (65537 * (490463 * (6700417 * (835945042244614951780389953367877943453916927241)))))))))) := by norm_num
  refine lucas_primality 115792089210356248762697446949407573530086143415290314195533631308867097853951 ((6 : ℕ) : ZMod 115792089210356248762697446949407573530086143415290314195533631308867097853951)
    (zmodPow_eq_one _ _ _ (by norm_num) (by decide) (by decide)) ?_
  intro q hq hdvd
  rw [hfac] at hdvd
  rcases (Nat.Prime.dvd_mul hq).mp hdvd with h | h
  · rw [(Nat.prime_dvd_prime_iff_eq hq (by norm_num)).mp h]
    exact zmodPow_ne_one _ _ _ (by norm_num) (by decide) (by decide)
  rcases (Nat.Prime.dvd_mul hq).mp h with h | h
  · rw [(Nat.prime_dvd_prime_iff_eq hq (by norm_num)).mp h]
    exact zmodPow_ne_one _ _ _ (by norm_num) (by decide) (by decide)
  rcases (Nat.Prime.dvd_mul hq).mp h with h | h
  · rw [(Nat.prime_dvd_prime_iff_eq hq (by norm_num)).mp (hq.dvd_of_dvd_pow h)]
    exact zmodPow_ne_one _ _ _ (by norm_num) (by decide) (by decide)
  rcases (Nat.Prime.dvd_mul hq).mp h with h | h
  · rw [(Nat.prime_dvd_prime_iff_eq hq (by norm_num)).mp h]
    exact zmodPow_ne_one _ _ _ (by norm_num) (by decide) (by decide)
  rcases (Nat.Prime.dvd_mul hq).mp h with h | h
  · rw [(Nat.prime_dvd_prime_iff_eq hq (by norm_num)).mp h]
    exact zmodPow_ne_one _ _ _ (by norm_num) (by decide) (by decide)
  rcases (Nat.Prime.dvd_mul hq).mp h with h | h
  · rw [(Nat.prime_dvd_prime_iff_eq hq (by norm_num)).mp h]
    exact zmodPow_ne_one _ _ _ (by norm_num) (by decide) (by decide)
  rcases (Nat.Prime.dvd_mul hq).mp h with h | h
  · rw [(Nat.prime_dvd_prime_iff_eq hq (by norm_num)).mp h]
    exact zmodPow_ne_one _ _ _ (by norm_num) (by decide) (by decide)
  rcases (Nat.Prime.dvd_mul hq).mp h with h | h
  · rw [(Nat.prime_dvd_prime_iff_eq hq (by norm_num)).mp h]
    exact zmodPow_ne_one _ _ _ (by norm_num) (by decide) (by decide)
  rcases (Nat.Prime.dvd_mul hq).mp h with h | h
  · rw [(Nat.prime_dvd_prime_iff_eq hq (by norm_num)).mp h]
    exact zmodPow_ne_one _ _ _ (by norm_num) (by decide) (by decide)
  rcases (Nat.Prime.dvd_mul hq).mp h with h | h
  · rw [(Nat.prime_dvd_prime_iff_eq hq (by norm_num)).mp h]
    exact zmodPow_ne_one _ _ _ (by norm_num) (by decide) (by decide)
  rw [(Nat.prime_dvd_prime_iff_eq hq prime_835945042244614951780389953367877943453916927241).mp h]
  exact zmodPow_ne_one _ _ _ (by norm_num) (by decide) (by decide)

/-- The P-256 field prime is prime (top of the Lucas certificate chain). -/
theorem p256_prime : Nat.Prime p256 :=
  prime_115792089210356248762697446949407573530086143415290314195533631308867097853951

/-- Writing a byte below a shifted value is addition. -/
theorem shiftLeft_lor_eq_add (x b : ℕ) (h : b < 256) :
    x <<< 8 ||| b = x * 256 + b := by
  apply Nat.eq_of_testBit_eq
  intro j
  rw [Nat.testBit_lor, Nat.testBit_shiftLeft,
    show x * 256 + b = 2 ^ 8 * x + b by ring,
    Nat.testBit_mul_pow_two_add x (show b < 2 ^ 8 by omega) j]
  by_cases hj : j < 8
  · simp [hj, Nat.not_le.mpr hj]
  · have hb : b.testBit j = false := by
      apply Nat.testBit_eq_false_of_lt
      calc b < 256 := h
      _ = 2 ^ 8 := by norm_num
      _ ≤ 2 ^ j := Nat.pow_le_pow_right (by norm_num) (by omega)
    simp [hj, Nat.not_lt.mp hj, hb]

theorem bytesToNat_append (l : List ℕ) (b : ℕ) :
    bytesToNat (l ++ [b]) = bytesToNat l <<< 8 ||| b := by
  unfold bytesToNat
  rw [List.foldl_append]
  rfl

theorem natToBytesBE_length (k v : ℕ) : (natToBytesBE k v).length = k := by
  induction k generalizing v with
  | zero => rfl
  | succ n ih => simp [natToBytesBE, ih]

/-- Big-endian deserialisation inverts serialisation on fixed-width byte
strings. -/
theorem natToBytesBE_bytesToNat (l : List ℕ) (hb : ∀ b ∈ l, b < 256) :
    natToBytesBE l.length (bytesToNat l) = l := by
  induction l using List.reverseRecOn with
  | nil => rfl
  | append_singleton l b ih =>
    have hblt : b < 256 := hb b (by simp)
    rw [bytesToNat_append, shiftLeft_lor_eq_add _ _ hblt,
      List.length_append, List.length_singleton, natToBytesBE]
    congr 1
    · rw [Nat.shiftRight_eq_div_pow]
      rw [show (2 : ℕ) ^ 8 = 256 by norm_num]
      rw [show (bytesToNat l * 256 + b) / 256 = bytesToNat l by omega]
      exact ih (fun x hx => hb x (by simp [hx]))
    · rw [show (255 : ℕ) = 2 ^ 8 - 1 by norm_num, Nat.and_pow_two_sub_one_eq_mod]
      rw [show (2 : ℕ) ^ 8 = 256 by norm_num]
      rw [show (bytesToNat l * 256 + b) % 256 = b by omega]

/-- The last byte written by the serialiser is the low byte of the value. -/
theorem natToBytesBE_getD_last (k v : ℕ) :
    (natToBytesBE (k + 1) v).getD k 0 = v &&& 255 := by
  rw [natToBytesBE]
  have hl : (natToBytesBE k (v >>> 8)).length = k := natToBytesBE_length k _
  generalize hg : natToBytesBE k (v >>> 8) = l at hl
  rw [List.getD, ← hl, List.get?_concat_length]
  rfl

/-- The truncating-remainder adjustment of `decompressPublicKey` lands in
`[0, p)` and preserves the residue class, for any value in `(-p, 2p)`. -/
theorem tmodAdjust_spec (v : ℤ) (hlo : -(p256 : ℤ) < v) :
    0 ≤ (if Int.tmod v (p256 : ℤ) < 0 then Int.tmod v (p256 : ℤ) + (p256 : ℤ)
        else Int.tmod v (p256 : ℤ)) ∧
    (if Int.tmod v (p256 : ℤ) < 0 then Int.tmod v (p256 : ℤ) + (p256 : ℤ)
        else Int.tmod v (p256 : ℤ)) < (p256 : ℤ) ∧
    (if Int.tmod v (p256 : ℤ) < 0 then Int.tmod v (p256 : ℤ) + (p256 : ℤ)
        else Int.tmod v (p256 : ℤ)) % (p256 : ℤ) = v % (p256 : ℤ) := by
  have hp : (0 : ℤ) < (p256 : ℤ) := by
    have : 0 < p256 := by decide
    exact_mod_cast this
  rcases le_or_lt 0 v with hv | hv
  · rw [Int.tmod_eq_emod hv (le_of_lt hp)]
    have h0 : 0 ≤ v % (p256 : ℤ) := Int.emod_nonneg v (ne_of_gt hp)
    rw [if_neg (not_lt.mpr h0)]
    exact ⟨h0, Int.emod_lt_of_pos v hp, Int.emod_emod_of_dvd v dvd_rfl⟩
  · have htd : v.tdiv (p256 : ℤ) = 0 := by
      have h1 : v = -(-v) := by ring
      rw [h1, Int.neg_tdiv, Int.tdiv_eq_zero_of_lt (by omega) (by omega)]
      ring
    have hr : Int.tmod v (p256 : ℤ) = v := by
      rw [Int.tmod_def, htd]
      ring
    rw [hr, if_pos hv]
    refine ⟨by omega, by omega, ?_⟩
    exact Int.add_emod_self

/-- In `ZMod p256`, the candidate square root `(z^2) ^ ((p+1)/4)` is `z` or
`-z` (the field prime satisfies `p ≡ 3 mod 4`). -/
theorem zmod_sqrt_cases (z : ZMod p256) :
    (z ^ 2) ^ ((p256 + 1) / 4) = z ∨ (z ^ 2) ^ ((p256 + 1) / 4) = -z := by
  haveI : Fact (Nat.Prime p256) := ⟨p256_prime⟩
  have hdvd : 4 ∣ p256 + 1 := by decide
  have hp2 : 2 ≤ p256 := by decide
  by_cases hz : z = 0
  · left
    subst hz
    rw [zero_pow (by norm_num : (2 : ℕ) ≠ 0), zero_pow]
    intro h0
    omega
  · have hsq : ((z ^ 2) ^ ((p256 + 1) / 4)) ^ 2 = z ^ 2 := by
      rw [← pow_mul, ← pow_mul]
      rw [show 2 * ((p256 + 1) / 4 * 2) = p256 + 1 by omega]
      rw [show p256 + 1 = (p256 - 1) + 2 by omega, pow_add,
        ZMod.pow_card_sub_one_eq_one hz, one_mul]
    have hfac : ((z ^ 2) ^ ((p256 + 1) / 4) - z) *
        ((z ^ 2) ^ ((p256 + 1) / 4) + z) = 0 := by
      linear_combination hsq
    rcases mul_eq_zero.mp hfac with h | h
    · left
      linear_combination h
    · right
      linear_combination h

set_option maxRecDepth 100000 in
set_option maxHeartbeats 2000000 in
/-- C8: for every 65-byte uncompressed P-256 public key with 0x04 prefix,
in-range coordinates and `y^2 = x^3 - 3x + b (mod p)`,
`decompressPublicKey (compressPublicKey key)` returns exactly the original
65 bytes, reproducing both the X and the Y coordinate. -/
theorem c8_point_compression_roundtrip (key : List ℕ)
    (hlen : key.length = 65)
    (hk0 : key.getD 0 0 = 4)
    (hbytes : ∀ b ∈ key, b < 256)
    (hylt : bytesToNat (slice key 33 65) < p256)
    (hcurve : (bytesToNat (slice key 33 65) : ZMod p256) ^ 2 =
      (bytesToNat (slice key 1 33) : ZMod p256) ^ 3 -
        3 * (bytesToNat (slice key 1 33) : ZMod p256) + (b256 : ZMod p256)) :
    ∃ c, compressPublicKey key = .ok c ∧ decompressPublicKey c = .ok key := by
  have hxBlen : (slice key 1 33).length = 32 := by
    simp [slice, hlen]
  have hyBlen : (slice key 33 65).length = 32 := by
    simp [slice, hlen]
  have hyBb : ∀ b ∈ slice key 33 65, b < 256 := by
    intro b hbmem
    exact hbytes b (List.drop_subset _ _ (List.take_subset _ _ hbmem))
  have hyBser : natToBytesBE 32 (bytesToNat (slice key 33 65)) = slice key 33 65 := by
    rw [← hyBlen]
    exact natToBytesBE_bytesToNat _ hyBb
  have hyLast : (slice key 33 65).getD 31 0 &&& 1 = bytesToNat (slice key 33 65) % 2 := by
    conv_lhs => rw [← hyBser]
    have h1 := natToBytesBE_getD_last 31 (bytesToNat (slice key 33 65))
    rw [show (31 : ℕ) + 1 = 32 from rfl] at h1
    rw [h1, show (255 : ℕ) = 2 ^ 8 - 1 by norm_num, Nat.and_pow_two_sub_one_eq_mod,
      Nat.and_one_is_mod]
    exact Nat.mod_mod_of_dvd _ (by norm_num)
  have hcomp : compressPublicKey key =
      .ok ((if bytesToNat (slice key 33 65) % 2 = 0 then 2 else 3) :: slice key 1 33) := by
    simp only [compressPublicKey]
    rw [if_neg ?_, hyLast]
    simp only [hlen, not_or]
    exact ⟨by omega, not_ne_iff.mpr hk0⟩
  refine ⟨_, hcomp, ?_⟩
  have hp2 : 2 ≤ p256 := by decide
  have hsliceC : slice ((if bytesToNat (slice key 33 65) % 2 = 0 then 2 else 3) ::
      slice key 1 33) 1 33 = slice key 1 33 := by
    show (((_ : ℕ) :: slice key 1 33).drop 1).take (33 - 1) = slice key 1 33
    rw [List.drop_succ_cons, List.drop_zero, show (33 : ℕ) - 1 = 32 from rfl,
      ← hxBlen, List.take_length]
  have hpfxok : ¬ ((if bytesToNat (slice key 33 65) % 2 = 0 then 2 else 3 : ℕ) ≠ 2 ∧
      (if bytesToNat (slice key 33 65) % 2 = 0 then 2 else 3 : ℕ) ≠ 3) := by
    rcases Nat.mod_two_eq_zero_or_one (bytesToNat (slice key 33 65)) with hpar | hpar <;>
      simp [hpar]
  simp only [decompressPublicKey, List.getD_cons_zero]
  rw [if_neg (by simp [hxBlen]), if_neg hpfxok, hsliceC]
  set yN := bytesToNat (slice key 33 65) with hyNdef
  set xN := bytesToNat (slice key 1 33) with hxNdef
  set x3 := modPow xN 3 p256 with hx3def
  set threeX := 3 * xN % p256 with hthreeXdef
  set vI : ℤ := (x3 : ℤ) - (threeX : ℤ) + (b256 : ℤ) with hvIdef
  set y2N : ℕ := (if Int.tmod vI (p256 : ℤ) < 0 then Int.tmod vI (p256 : ℤ) + (p256 : ℤ)
      else Int.tmod vI (p256 : ℤ)).toNat with hy2Ndef
  set y0 := modPow y2N ((p256 + 1) / 4) p256 with hy0def
  have hx3lt : x3 < p256 := modPow_lt _ _ _ hp2 (by decide)
  have hthreeXlt : threeX < p256 := Nat.mod_lt _ (by omega)
  have hb256lt : b256 < p256 := by decide
  have hlo : -(p256 : ℤ) < vI := by
    rw [hvIdef]
    have h1 : (threeX : ℤ) < (p256 : ℤ) := (Nat.cast_lt (α := ℤ)).mpr hthreeXlt
    have h2 : (0 : ℤ) ≤ (x3 : ℤ) := Int.natCast_nonneg _
    have h3 : (0 : ℤ) ≤ (b256 : ℤ) := Int.natCast_nonneg _
    omega
  obtain ⟨hge0, hltp, hmodeq⟩ := tmodAdjust_spec vI hlo
  have hy2lt : y2N < p256 := by
    rw [hy2Ndef]
    omega
  have hy2cast : ((y2N : ℕ) : ZMod p256) = ((yN : ZMod p256)) ^ 2 := by
    have hz1 : ((y2N : ℤ) : ZMod p256) = ((vI : ℤ) : ZMod p256) := by
      rw [ZMod.intCast_eq_intCast_iff]
      show _ % _ = _ % _
      rw [hy2Ndef, Int.toNat_of_nonneg hge0]
      exact hmodeq
    have hz2 : ((vI : ℤ) : ZMod p256) = (xN : ZMod p256) ^ 3 - 3 * (xN : ZMod p256)
        + (b256 : ZMod p256) := by
      rw [hvIdef]
      push_cast
      rw [hx3def, hthreeXdef, modPow_correct _ _ _ hp2 (by decide)]
      push_cast [ZMod.natCast_mod]
      ring
    calc ((y2N : ℕ) : ZMod p256) = ((y2N : ℤ) : ZMod p256) := by push_cast; ring
    _ = ((vI : ℤ) : ZMod p256) := hz1
    _ = (xN : ZMod p256) ^ 3 - 3 * (xN : ZMod p256) + (b256 : ZMod p256) := hz2
    _ = ((yN : ZMod p256)) ^ 2 := hcurve.symm
  have hy0cast : ((y0 : ℕ) : ZMod p256) =
      (((yN : ZMod p256)) ^ 2) ^ ((p256 + 1) / 4) := by
    rw [hy0def, ← castPow_eq _ _ _ hp2 (by decide), hy2cast]
  have hy0lt : y0 < p256 := modPow_lt _ _ _ hp2 (by decide)
  have hcases := zmod_sqrt_cases ((yN : ZMod p256))
  rw [← hy0cast] at hcases
  have hy0 : y0 = yN ∨ (0 < yN ∧ y0 = p256 - yN) := by
    rcases hcases with h | h
    · left
      have h2 := (ZMod.natCast_eq_natCast_iff _ _ _).mp h
      rwa [Nat.ModEq, Nat.mod_eq_of_lt hy0lt, Nat.mod_eq_of_lt hylt] at h2
    · by_cases hyzero : yN = 0
      · left
        rw [hyzero] at h ⊢
        rw [Nat.cast_zero, neg_zero] at h
        have h2 := (ZMod.natCast_eq_natCast_iff y0 0 p256).mp (by rw [h, Nat.cast_zero])
        rwa [Nat.ModEq, Nat.mod_eq_of_lt hy0lt, Nat.zero_mod] at h2
      · right
        refine ⟨Nat.pos_of_ne_zero hyzero, ?_⟩
        have hpn : ((p256 - yN : ℕ) : ZMod p256) = -(yN : ZMod p256) := by
          rw [Nat.cast_sub (le_of_lt hylt), ZMod.natCast_self]
          ring
        rw [← hpn] at h
        have h2 := (ZMod.natCast_eq_natCast_iff _ _ _).mp h
        rwa [Nat.ModEq, Nat.mod_eq_of_lt hy0lt, Nat.mod_eq_of_lt (by omega)] at h2
  have hpodd : p256 % 2 = 1 := by decide
  have hysel : (if (((if yN % 2 = 0 then 2 else 3 : ℕ) == 3) != (y0 &&& 1 == 1))
      then p256 - y0 else y0) = yN := by
    rw [Nat.and_one_is_mod]
    rcases hy0 with h | ⟨hpos, h⟩ <;>
      rcases Nat.mod_two_eq_zero_or_one yN with hpar | hpar
    · simp [h, hpar]
    · simp [h, hpar]
    · have hm : (p256 - yN) % 2 = 1 := by omega
      simp only [h, hpar, hm]
      norm_num
      omega
    · have hm : (p256 - yN) % 2 = 0 := by omega
      simp only [h, hpar, hm]
      norm_num
      omega
  rw [hysel, hyBser]
  have hrecon : (4 : ℕ) :: (slice key 1 33 ++ slice key 33 65) = key := by
    cases key with
    | nil => simp at hlen
    | cons k0 rest =>
      have hk0v : k0 = 4 := by simpa [List.getD] using hk0
      have hr : rest.length = 64 := by simpa using hlen
      subst hk0v
      show (4 : ℕ) :: (rest.take 32 ++ (rest.drop 32).take 32) = 4 :: rest
      have hdl : (rest.drop 32).take 32 = rest.drop 32 :=
        List.take_of_length_le (by simp [hr])
      rw [hdl, List.take_append_drop]
  rw [hrecon]

set_option maxRecDepth 100000 in
/-- Witness for C8: the on-curve point with x = 0 round-trips through
compression and decompression. -/
theorem c8_witness :
    ∃ c, compressPublicKey exampleP256Key = .ok c ∧
      decompressPublicKey c = .ok exampleP256Key :=
  c8_point_compression_roundtrip exampleP256Key (by decide) (by decide) (by decide) (by decide) (by decide)


end NodeZero
